import Mathlib

/-!
Verification of the carbon structure codec of the hellogoodbye message
types (src/mcrouter/lib/carbon/example/gen/HelloGoodbyeMessages.cpp) and
of the mcrouter client lifecycle and configuration validation exercised by
src/mcrouter/test/cpp_unit_tests/libmcrouter_test.cpp.

Byte streams are lists of natural numbers below 256.  The
CarbonProtocolWriter and CarbonProtocolReader primitives are not part of
the visible sources; they are modelled from the wire-format section of the
specification: each field is one type byte, one tag byte, then the value
bytes for that type; the stop field is the single reserved type byte 0
with no tag and no value; integers are 8 fixed little-endian bytes in
two-complement form; strings are a 4-byte little-endian length then the
raw bytes.  The spec leaves these width choices to the implementation and
only requires self-consistency.
-/

/-- Wire field types used by the hellogoodbye messages: the reserved stop
marker, 64-bit integers, and length-prefixed binary/string data. -/
inductive FieldType where
  | Stop
  | Int64
  | Binary
deriving DecidableEq, Repr

/-- Modelled from the spec: the one-byte type code written in front of each
field. -/
def FieldType.code : FieldType → Nat
  | .Stop => 0
  | .Int64 => 1
  | .Binary => 2

/-- Modelled from the spec: decoding of the one-byte type code; unknown
codes make the reader fail (stream desynchronization). -/
def fieldTypeOfCode (b : Nat) : Option FieldType :=
  if b = 0 then some FieldType.Stop
  else if b = 1 then some FieldType.Int64
  else if b = 2 then some FieldType.Binary
  else none

/-- Little-endian encoding of a natural number into exactly `w` bytes. -/
def natToBytes : Nat → Nat → List Nat
  | 0, _ => []
  | w + 1, n => n % 256 :: natToBytes w (n / 256)

/-- Little-endian decoding of a byte list into a natural number. -/
def bytesToNat : List Nat → Nat
  | [] => 0
  | b :: bs => b + 256 * bytesToNat bs

/-- Modelled from the spec: two-complement encoding of a 64-bit integer
value into 8 little-endian bytes. -/
def int64Encode (v : Int) : List Nat :=
  natToBytes 8 (v % (2 ^ 64 : Int)).toNat

/-- Modelled from the spec: two-complement decoding of 8 little-endian
bytes into a 64-bit integer value. -/
def int64Decode (bs : List Nat) : Int :=
  let n := bytesToNat bs
  if n < 2 ^ 63 then (n : Int) else (n : Int) - 2 ^ 64

/-- A wire value: either a 64-bit integer or a binary/string payload. -/
inductive WireValue where
  | i64 (v : Int)
  | bin (s : List Nat)
deriving DecidableEq, Repr

/-- The wire type declared in the header of a field holding this value. -/
def WireValue.fieldType : WireValue → FieldType
  | .i64 _ => FieldType.Int64
  | .bin _ => FieldType.Binary

/-- Modelled from the spec: the value bytes of a field. -/
def WireValue.valueBytes : WireValue → List Nat
  | .i64 v => int64Encode v
  | .bin s => natToBytes 4 s.length ++ s

/-- Modelled from the spec: CarbonProtocolWriter field output, one type
byte, one tag byte, then the value bytes. -/
def writeField (tag : Nat) (wv : WireValue) : List Nat :=
  wv.fieldType.code :: tag :: wv.valueBytes

/-- Modelled from the spec: writeStructBegin produces no bytes. -/
def writeStructBegin : List Nat := []

/-- Modelled from the spec: writeStructEnd produces no bytes. -/
def writeStructEnd : List Nat := []

/-- Modelled from the spec: writeStop appends the reserved stop type code
with no tag and no value. -/
def writeStop : List Nat := [FieldType.Stop.code]

/-- Byte concatenation of a field list. -/
def encodeFields (fs : List (Nat × WireValue)) : List Nat :=
  (fs.map fun f => writeField f.1 f.2).flatten

/-- Reads exactly `n` bytes from the front of the stream, failing when
fewer are available. -/
def readBytesN (n : Nat) (bs : List Nat) : Option (List Nat × List Nat) :=
  if n ≤ bs.length then some (bs.take n, bs.drop n) else none

/-- Modelled from the spec: CarbonProtocolReader::readFieldHeader, one
type byte, then a tag byte unless the type is the stop marker. -/
def readFieldHeader (bs : List Nat) : Option ((FieldType × Nat) × List Nat) :=
  match bs with
  | [] => none
  | t :: rest =>
    match fieldTypeOfCode t with
    | none => none
    | some FieldType.Stop => some ((FieldType.Stop, 0), rest)
    | some ft =>
      match rest with
      | [] => none
      | tag :: rest2 => some ((ft, tag), rest2)

/-- Modelled from the spec: CarbonProtocolReader::skip consumes exactly
the bytes of one field value of the given type without interpreting it;
skipping the stop type is a protocol error. -/
def skip (ft : FieldType) (bs : List Nat) : Option (List Nat) :=
  match ft with
  | FieldType.Stop => none
  | FieldType.Int64 => (readBytesN 8 bs).map Prod.snd
  | FieldType.Binary =>
    match readBytesN 4 bs with
    | none => none
    | some (lenBytes, r) => (readBytesN (bytesToNat lenBytes) r).map Prod.snd

/-- Modelled from the spec: reading one 64-bit integer value. -/
def readInt64 (bs : List Nat) : Option (Int × List Nat) :=
  (readBytesN 8 bs).map fun p => (int64Decode p.1, p.2)

/-- Modelled from the spec: reading one length-prefixed binary value. -/
def readBinary (bs : List Nat) : Option (List Nat × List Nat) :=
  match readBytesN 4 bs with
  | none => none
  | some (lenBytes, r) => readBytesN (bytesToNat lenBytes) r

/-- Modelled from the spec: CarbonProtocolReader::readField into an
integer slot; when the declared wire type matches, the decoded value
replaces the slot, otherwise the field is skipped and the slot keeps its
old value (the lenient per-field type-mismatch policy of the spec). -/
def readFieldI64 (old : Int) (ft : FieldType) (bs : List Nat) :
    Option (Int × List Nat) :=
  match ft with
  | FieldType.Int64 => readInt64 bs
  | _ => (skip ft bs).map fun r => (old, r)

/-- Modelled from the spec: CarbonProtocolReader::readField into a
binary/string slot; same lenient mismatch policy as `readFieldI64`. -/
def readFieldBin (old : List Nat) (ft : FieldType) (bs : List Nat) :
    Option (List Nat × List Nat) :=
  match ft with
  | FieldType.Binary => readBinary bs
  | _ => (skip ft bs).map fun r => (old, r)

/-- Modelled from the spec: readStructBegin consumes no bytes. -/
def readStructBegin (bs : List Nat) : List Nat := bs

/-- Modelled from the spec: readStructEnd consumes no bytes. -/
def readStructEnd (bs : List Nat) : List Nat := bs

/-- Representable range of a binary/string field: length below 2^32 and
byte-valued characters. -/
def validBin (s : List Nat) : Prop := s.length < 2 ^ 32 ∧ ∀ b ∈ s, b < 256

/-- Representable range of a 64-bit integer field. -/
def validI64 (v : Int) : Prop := -(2 ^ 63) ≤ v ∧ v < 2 ^ 63

/-- Representable range of a wire value. -/
def WireValue.valid : WireValue → Prop
  | .i64 v => validI64 v
  | .bin s => validBin s

/-- A representable field: a one-byte tag and a representable value. -/
def validField (f : Nat × WireValue) : Prop := f.1 < 256 ∧ f.2.valid

/-- All fields of a list are representable. -/
def validFields (fs : List (Nat × WireValue)) : Prop := ∀ f ∈ fs, validField f

instance : DecidablePred validBin := fun s => by
  unfold validBin; infer_instance

instance : DecidablePred validI64 := fun v => by
  unfold validI64; infer_instance

instance : DecidablePred WireValue.valid := fun wv => by
  cases wv <;> unfold WireValue.valid <;> infer_instance

instance : DecidablePred validField := fun f => by
  unfold validField; infer_instance

instance : DecidablePred validFields := fun fs => by
  unfold validFields; infer_instance

/-!
The deserialize bodies of the four message types share one loop shape
(HelloGoodbyeMessages.cpp lines 31-54, 67-87, 102-125, 139-162): read a
field header, exit on the stop marker, otherwise dispatch on the tag via
the per-type switch block and continue.  `structLoopAux` is that common
while-loop, parameterized by the switch block (`step`); it is driven by a
fuel counter that the wrapper `structLoop` seeds with more fuel than the
stream has bytes, which is always enough because every iteration consumes
at least the header byte.
-/

/-- The common deserialize field loop; `step` is the per-type switch on
the field id. -/
def structLoopAux {M : Type}
    (step : FieldType → Nat → List Nat → M → Option (M × List Nat)) :
    Nat → M → List Nat → Option (M × List Nat)
  | 0, _, _ => none
  | fuel + 1, m, bs =>
    match readFieldHeader bs with
    | none => none
    | some ((ft, tag), rest) =>
      if ft = FieldType.Stop then some (m, rest)
      else
        match step ft tag rest m with
        | none => none
        | some (m2, r) => structLoopAux step fuel m2 r

/-- The deserialize field loop with enough fuel for the whole stream. -/
def structLoop {M : Type}
    (step : FieldType → Nat → List Nat → M → Option (M × List Nat))
    (m : M) (bs : List Nat) : Option (M × List Nat) :=
  structLoopAux step (bs.length + 1) m bs

/-- The switch block consumes only bytes of the remaining stream. -/
def StepConsumes {M : Type}
    (step : FieldType → Nat → List Nat → M → Option (M × List Nat)) : Prop :=
  ∀ ft tag bs m m2 r, step ft tag bs m = some (m2, r) → r.length ≤ bs.length

/-!
The four hellogoodbye message types.  The generated header is not among
the visible sources; the field layout (tags 1 and 2, string keys, integer
shard ids, integer result codes, string payloads) follows the generated
serialize/deserialize bodies and the spec data model, with fields
default-initialized to zero/empty.
-/

/-- HelloRequest: key (string, tag 1) and shardId (64-bit int, tag 2). -/
structure HelloRequest where
  key : List Nat := []
  shardId : Int := 0
deriving DecidableEq, Repr

/-- HelloReply: result code (int, tag 1). -/
structure HelloReply where
  result : Int := 0
deriving DecidableEq, Repr

/-- GoodbyeRequest: key (string, tag 1) and shardId (64-bit int, tag 2). -/
structure GoodbyeRequest where
  key : List Nat := []
  shardId : Int := 0
deriving DecidableEq, Repr

/-- GoodbyeReply: result code (int, tag 1) and message (string, tag 2). -/
structure GoodbyeReply where
  result : Int := 0
  message : List Nat := []
deriving DecidableEq, Repr

/-- A default-initialized HelloRequest. -/
def HelloRequest.default : HelloRequest := {}

/-- A default-initialized HelloReply. -/
def HelloReply.default : HelloReply := {}

/-- A default-initialized GoodbyeRequest. -/
def GoodbyeRequest.default : GoodbyeRequest := {}

/-- A default-initialized GoodbyeReply. -/
def GoodbyeReply.default : GoodbyeReply := {}

/-- HelloRequest::serialize from HelloGoodbyeMessages.cpp lines 21-27:
struct begin, field 1 = key, field 2 = shardId, struct end, stop. -/
def HelloRequest.serialize (m : HelloRequest) : List Nat :=
  writeStructBegin ++
    writeField 1 (WireValue.bin m.key) ++
    writeField 2 (WireValue.i64 m.shardId) ++
    writeStructEnd ++ writeStop

/-- HelloReply::serialize from HelloGoodbyeMessages.cpp lines 58-63:
struct begin, field 1 = result, struct end, stop. -/
def HelloReply.serialize (m : HelloReply) : List Nat :=
  writeStructBegin ++
    writeField 1 (WireValue.i64 m.result) ++
    writeStructEnd ++ writeStop

/-- GoodbyeRequest::serialize from HelloGoodbyeMessages.cpp lines 92-98:
struct begin, field 1 = key, field 2 = shardId, struct end, stop. -/
def GoodbyeRequest.serialize (m : GoodbyeRequest) : List Nat :=
  writeStructBegin ++
    writeField 1 (WireValue.bin m.key) ++
    writeField 2 (WireValue.i64 m.shardId) ++
    writeStructEnd ++ writeStop

/-- GoodbyeReply::serialize from HelloGoodbyeMessages.cpp lines 129-135:
struct begin, field 1 = result, field 2 = message, struct end, stop. -/
def GoodbyeReply.serialize (m : GoodbyeReply) : List Nat :=
  writeStructBegin ++
    writeField 1 (WireValue.i64 m.result) ++
    writeField 2 (WireValue.bin m.message) ++
    writeStructEnd ++ writeStop

/-- The switch block of HelloRequest::deserialize (lines 40-53): tag 1
reads into key, tag 2 reads into shardId, anything else is skipped. -/
def HelloRequest.readFields (ft : FieldType) (tag : Nat) (bs : List Nat)
    (m : HelloRequest) : Option (HelloRequest × List Nat) :=
  match tag with
  | 1 => (readFieldBin m.key ft bs).map fun p => ({ m with key := p.1 }, p.2)
  | 2 =>
    (readFieldI64 m.shardId ft bs).map fun p => ({ m with shardId := p.1 }, p.2)
  | _ => (skip ft bs).map fun r => (m, r)

/-- HelloRequest::deserialize (lines 29-56): struct begin, the field loop
with the tag switch, struct end. -/
def HelloRequest.deserialize (m : HelloRequest) (bs : List Nat) :
    Option (HelloRequest × List Nat) :=
  (structLoop HelloRequest.readFields m (readStructBegin bs)).map
    fun p => (p.1, readStructEnd p.2)

/-- The switch block of HelloReply::deserialize (lines 76-85): tag 1
reads into result, anything else is skipped. -/
def HelloReply.readFields (ft : FieldType) (tag : Nat) (bs : List Nat)
    (m : HelloReply) : Option (HelloReply × List Nat) :=
  match tag with
  | 1 =>
    (readFieldI64 m.result ft bs).map fun p => ({ m with result := p.1 }, p.2)
  | _ => (skip ft bs).map fun r => (m, r)

/-- HelloReply::deserialize (lines 65-88). -/
def HelloReply.deserialize (m : HelloReply) (bs : List Nat) :
    Option (HelloReply × List Nat) :=
  (structLoop HelloReply.readFields m (readStructBegin bs)).map
    fun p => (p.1, readStructEnd p.2)

/-- The switch block of GoodbyeRequest::deserialize (lines 111-124): tag 1
reads into key, tag 2 reads into shardId, anything else is skipped. -/
def GoodbyeRequest.readFields (ft : FieldType) (tag : Nat) (bs : List Nat)
    (m : GoodbyeRequest) : Option (GoodbyeRequest × List Nat) :=
  match tag with
  | 1 => (readFieldBin m.key ft bs).map fun p => ({ m with key := p.1 }, p.2)
  | 2 =>
    (readFieldI64 m.shardId ft bs).map fun p => ({ m with shardId := p.1 }, p.2)
  | _ => (skip ft bs).map fun r => (m, r)

/-- GoodbyeRequest::deserialize (lines 100-127). -/
def GoodbyeRequest.deserialize (m : GoodbyeRequest) (bs : List Nat) :
    Option (GoodbyeRequest × List Nat) :=
  (structLoop GoodbyeRequest.readFields m (readStructBegin bs)).map
    fun p => (p.1, readStructEnd p.2)

/-- The switch block of GoodbyeReply::deserialize (lines 148-161): tag 1
reads into result, tag 2 reads into message, anything else is skipped. -/
def GoodbyeReply.readFields (ft : FieldType) (tag : Nat) (bs : List Nat)
    (m : GoodbyeReply) : Option (GoodbyeReply × List Nat) :=
  match tag with
  | 1 =>
    (readFieldI64 m.result ft bs).map fun p => ({ m with result := p.1 }, p.2)
  | 2 =>
    (readFieldBin m.message ft bs).map fun p => ({ m with message := p.1 }, p.2)
  | _ => (skip ft bs).map fun r => (m, r)

/-- GoodbyeReply::deserialize (lines 137-164). -/
def GoodbyeReply.deserialize (m : GoodbyeReply) (bs : List Nat) :
    Option (GoodbyeReply × List Nat) :=
  (structLoop GoodbyeReply.readFields m (readStructBegin bs)).map
    fun p => (p.1, readStructEnd p.2)

/-- Field-level effect of the HelloRequest switch: tag 1 with a binary
value sets key, tag 2 with an integer value sets shardId, and any other
tag or a mismatched wire type leaves the message unchanged. -/
def HelloRequest.applyField (m : HelloRequest) : Nat × WireValue → HelloRequest
  | (1, WireValue.bin s) => { m with key := s }
  | (2, WireValue.i64 v) => { m with shardId := v }
  | _ => m

/-- Field-level effect of the HelloReply switch: tag 1 with an integer
value sets result, everything else leaves the message unchanged. -/
def HelloReply.applyField (m : HelloReply) : Nat × WireValue → HelloReply
  | (1, WireValue.i64 v) => { m with result := v }
  | _ => m

/-- Field-level effect of the GoodbyeRequest switch: tag 1 with a binary
value sets key, tag 2 with an integer value sets shardId, and any other
tag or a mismatched wire type leaves the message unchanged. -/
def GoodbyeRequest.applyField (m : GoodbyeRequest) :
    Nat × WireValue → GoodbyeRequest
  | (1, WireValue.bin s) => { m with key := s }
  | (2, WireValue.i64 v) => { m with shardId := v }
  | _ => m

/-- Field-level effect of the GoodbyeReply switch: tag 1 with an integer
value sets result, tag 2 with a binary value sets message, and any other
tag or a mismatched wire type leaves the message unchanged. -/
def GoodbyeReply.applyField (m : GoodbyeReply) :
    Nat × WireValue → GoodbyeReply
  | (1, WireValue.i64 v) => { m with result := v }
  | (2, WireValue.bin s) => { m with message := s }
  | _ => m

/-- Representable range of a HelloRequest. -/
def HelloRequest.valid (m : HelloRequest) : Prop :=
  validBin m.key ∧ validI64 m.shardId

/-- Representable range of a HelloReply. -/
def HelloReply.valid (m : HelloReply) : Prop := validI64 m.result

/-- Representable range of a GoodbyeRequest. -/
def GoodbyeRequest.valid (m : GoodbyeRequest) : Prop :=
  validBin m.key ∧ validI64 m.shardId

/-- Representable range of a GoodbyeReply. -/
def GoodbyeReply.valid (m : GoodbyeReply) : Prop :=
  validI64 m.result ∧ validBin m.message

instance : DecidablePred HelloRequest.valid := fun m => by
  unfold HelloRequest.valid; infer_instance

instance : DecidablePred HelloReply.valid := fun m => by
  unfold HelloReply.valid; infer_instance

instance : DecidablePred GoodbyeRequest.valid := fun m => by
  unfold GoodbyeRequest.valid; infer_instance

instance : DecidablePred GoodbyeReply.valid := fun m => by
  unfold GoodbyeReply.valid; infer_instance

/-- Spec-level observer of the wire bytes: the list of field headers of
one structure, obtained by skipping every field value; it mirrors the
read contract without touching any message slot. -/
def summaryStep (ft : FieldType) (tag : Nat) (bs : List Nat)
    (acc : List (FieldType × Nat)) :
    Option (List (FieldType × Nat) × List Nat) :=
  (skip ft bs).map fun r => (acc ++ [(ft, tag)], r)

/-- The field headers of the structure at the front of the stream,
together with the bytes remaining after its stop marker. -/
def fieldSummary (bs : List Nat) :
    Option (List (FieldType × Nat) × List Nat) :=
  structLoop summaryStep [] bs

/-!
Client lifecycle and configuration validation.  The McrouterInstance and
client dispatch implementation is not under src/; only the unit test
libmcrouter_test.cpp that exercises it is.  The state below is modelled
from the spec: an in-flight request record counts its terminal callbacks,
a Client Handle owns a list of such records, destruction cancels every
record that has no terminal callback yet, and init validates the
configuration before any instance exists.
-/

/-- Modelled from the spec: an In-flight Request Record tracks how many
times on-reply and on-cancel have fired for it. -/
structure RequestRecord where
  replies : Nat := 0
  cancels : Nat := 0
deriving DecidableEq, Repr

/-- Modelled from the spec: a Client Handle owning its in-flight request
records. -/
structure ClientHandle where
  inflight : List RequestRecord
deriving DecidableEq, Repr

/-- Modelled from the spec: the reply path claims the record only when no
terminal callback has fired yet (single-writer claim). -/
def onReplyRecord (r : RequestRecord) : RequestRecord :=
  if r.replies = 0 ∧ r.cancels = 0 then { r with replies := r.replies + 1 }
  else r

/-- Modelled from the spec: the cancellation path claims the record only
when no terminal callback has fired yet (single-writer claim). -/
def onCancelRecord (r : RequestRecord) : RequestRecord :=
  if r.replies = 0 ∧ r.cancels = 0 then { r with cancels := r.cancels + 1 }
  else r

/-- Modelled from the spec: destroying a Client Handle resolves every
still-in-flight request through the cancellation path before returning. -/
def destroyClient (h : ClientHandle) : ClientHandle :=
  { inflight := h.inflight.map onCancelRecord }

/-- Modelled from the spec: a configuration document as seen by the
validator, with the set of defined pool names and the pool names
referenced by its routes. -/
structure ConfigDoc where
  definedPools : List Nat
  referencedPools : List Nat
deriving DecidableEq, Repr

/-- Modelled from the spec: the validated immutable routing policy. -/
structure RouterConfig where
  pools : List Nat
deriving DecidableEq, Repr

/-- Modelled from the spec: router lifecycle states. -/
inductive RouterState where
  | uninitialized
  | validating
  | ready
  | terminated
deriving DecidableEq, Repr

/-- Modelled from the spec: a Router Instance owning its validated
configuration and lifecycle state. -/
structure McrouterInstance where
  state : RouterState
  config : RouterConfig
deriving DecidableEq, Repr

/-- Modelled from the spec: configuration validation is atomic; every pool
referenced by a route must be defined, otherwise no configuration is
produced. -/
def validateConfig (c : ConfigDoc) : Option RouterConfig :=
  if ∀ p ∈ c.referencedPools, p ∈ c.definedPools then
    some { pools := c.definedPools }
  else none

/-- Modelled from the spec: McrouterInstance::init runs configuration
validation synchronously; on failure it returns no usable instance, on
success the instance reaches the ready state. -/
def McrouterInstance.init (c : ConfigDoc) : Option McrouterInstance :=
  match validateConfig c with
  | some cfg => some { state := RouterState.ready, config := cfg }
  | none => none

/-- Modelled from the spec: createClient yields a handle only from an
instance in the ready state. -/

def createClient (inst : Option McrouterInstance) : Option ClientHandle :=
  match inst with
  | some i =>
    if i.state = RouterState.ready then some { inflight := [] } else none
  | none => none

theorem readBytesN_length {n : Nat} {bs v r : List Nat}
    (h : readBytesN n bs = some (v, r)) : r.length ≤ bs.length := by
  unfold readBytesN at h
  split at h
  · cases h; simp
  · cases h

theorem skip_length {ft : FieldType} {bs r : List Nat}
    (h : skip ft bs = some r) : r.length ≤ bs.length := by
  cases ft with
  | Stop => simp [skip] at h
  | Int64 =>
    simp only [skip] at h
    cases hr : readBytesN 8 bs with
    | none => rw [hr] at h; simp at h
    | some p =>
      rw [hr] at h
      simp only [Option.map_some'] at h
      cases h
      exact readBytesN_length hr
  | Binary =>
    simp only [skip] at h
    split at h
    · cases h
    · rename_i lenBytes r1 h4
      cases hr : readBytesN (bytesToNat lenBytes) r1 with
      | none => rw [hr] at h; simp at h
      | some q =>
        rw [hr] at h
        simp only [Option.map_some'] at h
        cases h
        exact le_trans (readBytesN_length hr) (readBytesN_length h4)

theorem readInt64_length {bs : List Nat} {v : Int} {r : List Nat}
    (h : readInt64 bs = some (v, r)) : r.length ≤ bs.length := by
  simp only [readInt64] at h
  cases hr : readBytesN 8 bs with
  | none => rw [hr] at h; simp at h
  | some p =>
    rw [hr] at h
    simp only [Option.map_some'] at h
    cases h
    exact readBytesN_length hr

theorem readBinary_length {bs v r : List Nat}
    (h : readBinary bs = some (v, r)) : r.length ≤ bs.length := by
  simp only [readBinary] at h
  cases h4 : readBytesN 4 bs with
  | none => rw [h4] at h; cases h
  | some p =>
    rw [h4] at h
    obtain ⟨lenBytes, r1⟩ := p
    exact le_trans (readBytesN_length h) (readBytesN_length h4)

theorem readFieldI64_length {old : Int} {ft : FieldType} {bs : List Nat}
    {v : Int} {r : List Nat}
    (h : readFieldI64 old ft bs = some (v, r)) : r.length ≤ bs.length := by
  cases ft with
  | Int64 => exact readInt64_length h
  | Stop => simp [readFieldI64, skip] at h
  | Binary =>
    simp only [readFieldI64] at h
    cases hs : skip FieldType.Binary bs with
    | none => rw [hs] at h; simp at h
    | some r2 =>
      rw [hs] at h
      simp only [Option.map_some'] at h
      cases h
      exact skip_length hs

theorem readFieldBin_length {old : List Nat} {ft : FieldType}
    {bs v r : List Nat}
    (h : readFieldBin old ft bs = some (v, r)) : r.length ≤ bs.length := by
  cases ft with
  | Binary => exact readBinary_length h
  | Stop => simp [readFieldBin, skip] at h
  | Int64 =>
    simp only [readFieldBin] at h
    cases hs : skip FieldType.Int64 bs with
    | none => rw [hs] at h; simp at h
    | some r2 =>
      rw [hs] at h
      simp only [Option.map_some'] at h
      cases h
      exact skip_length hs

theorem readFieldHeader_length {bs : List Nat} {hd : FieldType × Nat}
    {r : List Nat}
    (h : readFieldHeader bs = some (hd, r)) : r.length < bs.length := by
  cases bs with
  | nil => simp [readFieldHeader] at h
  | cons t rest =>
    simp only [readFieldHeader] at h
    cases hft : fieldTypeOfCode t with
    | none => rw [hft] at h; simp at h
    | some ft =>
      rw [hft] at h
      cases ft with
      | Stop => cases h; simp
      | Int64 =>
        cases rest with
        | nil => simp at h
        | cons tag rest2 => cases h; simp; omega
      | Binary =>
        cases rest with
        | nil => simp at h
        | cons tag rest2 => cases h; simp; omega

theorem natToBytes_length (w n : Nat) : (natToBytes w n).length = w := by
  induction w generalizing n with
  | zero => rfl
  | succ w ih => simp [natToBytes, ih]

theorem bytesToNat_natToBytes (w n : Nat) :
    bytesToNat (natToBytes w n) = n % 256 ^ w := by
  induction w generalizing n with
  | zero => simp [natToBytes, bytesToNat, Nat.mod_one]
  | succ w ih =>
    simp only [natToBytes, bytesToNat, ih]
    rw [show n / 256 % 256 ^ w = n % (256 * 256 ^ w) / 256 from
      (Nat.mod_mul_right_div_self n 256 (256 ^ w)).symm]
    rw [show 256 * 256 ^ w = 256 ^ (w + 1) from (pow_succ' 256 w).symm]
    rw [show n % 256 = n % 256 ^ (w + 1) % 256 from
      (Nat.mod_mod_of_dvd n (dvd_pow_self 256 (Nat.succ_ne_zero w))).symm]
    exact Nat.mod_add_div _ 256

theorem int64_roundtrip {v : Int} (h1 : -(2 ^ 63) ≤ v) (h2 : v < 2 ^ 63) :
    int64Decode (int64Encode v) = v := by
  unfold int64Encode int64Decode
  rw [bytesToNat_natToBytes]
  have h256 : (256 : Nat) ^ 8 = 18446744073709551616 := by norm_num
  have h64i : (2 : Int) ^ 64 = 18446744073709551616 := by norm_num
  have h63n : (2 : Nat) ^ 63 = 9223372036854775808 := by norm_num
  have h63i : (2 : Int) ^ 63 = 9223372036854775808 := by norm_num
  rw [h63i] at h2
  rw [h63i] at h1
  rw [h256, h64i, h63n]
  dsimp only
  split <;> omega

theorem readBytesN_exact {n : Nat} {xs rest : List Nat} (h : xs.length = n) :
    readBytesN n (xs ++ rest) = some (xs, rest) := by
  subst h
  simp [readBytesN, List.take_left, List.drop_left]

theorem readBinary_encoded {s : List Nat} (rest : List Nat)
    (h : s.length < 2 ^ 32) :
    readBinary ((WireValue.bin s).valueBytes ++ rest) = some (s, rest) := by
  show readBinary ((natToBytes 4 s.length ++ s) ++ rest) = some (s, rest)
  rw [List.append_assoc]
  unfold readBinary
  rw [readBytesN_exact (natToBytes_length 4 s.length)]
  show readBytesN (bytesToNat (natToBytes 4 s.length)) (s ++ rest) = some (s, rest)
  rw [bytesToNat_natToBytes]
  rw [Nat.mod_eq_of_lt (by norm_num at h ⊢; omega)]
  exact readBytesN_exact rfl

theorem int64Encode_length (v : Int) : (int64Encode v).length = 8 :=
  natToBytes_length 8 _

theorem readInt64_encoded (v : Int) (rest : List Nat) :
    readInt64 ((WireValue.i64 v).valueBytes ++ rest) =
      some (int64Decode (int64Encode v), rest) := by
  show readInt64 (int64Encode v ++ rest) = _
  unfold readInt64
  rw [readBytesN_exact (int64Encode_length v)]
  rfl

theorem skip_encoded {wv : WireValue} (rest : List Nat) (h : wv.valid) :
    skip wv.fieldType (wv.valueBytes ++ rest) = some rest := by
  cases wv with
  | i64 v =>
    show skip FieldType.Int64 (int64Encode v ++ rest) = some rest
    unfold skip
    rw [readBytesN_exact (int64Encode_length v)]
    rfl
  | bin s =>
    show skip FieldType.Binary ((natToBytes 4 s.length ++ s) ++ rest) = some rest
    rw [List.append_assoc]
    unfold skip
    rw [readBytesN_exact (natToBytes_length 4 s.length)]
    show Option.map Prod.snd
      (readBytesN (bytesToNat (natToBytes 4 s.length)) (s ++ rest)) = some rest
    rw [bytesToNat_natToBytes]
    obtain ⟨hlen, _⟩ := h
    rw [Nat.mod_eq_of_lt (by norm_num at hlen ⊢; omega)]
    rw [readBytesN_exact rfl]
    rfl

theorem readFieldHeader_writeField (tag : Nat) (wv : WireValue)
    (rest : List Nat) :
    readFieldHeader (writeField tag wv ++ rest) =
      some ((wv.fieldType, tag), wv.valueBytes ++ rest) := by
  cases wv <;> rfl

theorem readFieldHeader_stop (rest : List Nat) :
    readFieldHeader (writeStop ++ rest) = some ((FieldType.Stop, 0), rest) :=
  rfl

theorem structLoopAux_congr {M : Type}
    {step : FieldType → Nat → List Nat → M → Option (M × List Nat)}
    (hc : StepConsumes step) :
    ∀ fuel1 fuel2 (m : M) (bs : List Nat), bs.length < fuel1 →
      bs.length < fuel2 →
      structLoopAux step fuel1 m bs = structLoopAux step fuel2 m bs := by
  intro fuel1
  induction fuel1 with
  | zero => intro fuel2 m bs h1; omega
  | succ f1 ih =>
    intro fuel2 m bs h1 h2
    cases fuel2 with
    | zero => omega
    | succ f2 =>
      simp only [structLoopAux]
      cases hrd : readFieldHeader bs with
      | none => rfl
      | some p =>
        obtain ⟨⟨ft, tag⟩, rest⟩ := p
        cases ft with
        | Stop => rfl
        | Int64 =>
          dsimp only
          simp only [if_neg (by decide : ¬(FieldType.Int64 = FieldType.Stop))]
          cases hst : step FieldType.Int64 tag rest m with
          | none => rfl
          | some q =>
            obtain ⟨m2, r⟩ := q
            have hr1 := readFieldHeader_length hrd
            have hr2 := hc _ _ _ _ _ _ hst
            exact ih f2 m2 r (by omega) (by omega)
        | Binary =>
          dsimp only
          simp only [if_neg (by decide : ¬(FieldType.Binary = FieldType.Stop))]
          cases hst : step FieldType.Binary tag rest m with
          | none => rfl
          | some q =>
            obtain ⟨m2, r⟩ := q
            have hr1 := readFieldHeader_length hrd
            have hr2 := hc _ _ _ _ _ _ hst
            exact ih f2 m2 r (by omega) (by omega)

theorem structLoop_nil {M : Type}
    (step : FieldType → Nat → List Nat → M → Option (M × List Nat))
    (m : M) : structLoop step m [] = none := rfl

theorem structLoop_stop {M : Type}
    (step : FieldType → Nat → List Nat → M → Option (M × List Nat))
    (m : M) (rest : List Nat) :
    structLoop step m (writeStop ++ rest) = some (m, rest) := rfl

theorem structLoop_field {M : Type}
    {step : FieldType → Nat → List Nat → M → Option (M × List Nat)}
    (hc : StepConsumes step) (tag : Nat) (wv : WireValue) (rest : List Nat)
    (m m2 : M)
    (hst : step wv.fieldType tag (wv.valueBytes ++ rest) m = some (m2, rest)) :
    structLoop step m (writeField tag wv ++ rest) = structLoop step m2 rest := by
  unfold structLoop
  conv_lhs => rw [structLoopAux]
  rw [readFieldHeader_writeField]
  have hns : wv.fieldType ≠ FieldType.Stop := by
    cases wv <;> simp [WireValue.fieldType]
  dsimp only
  simp only [if_neg hns]
  rw [hst]
  dsimp only
  exact structLoopAux_congr hc _ _ m2 rest
    (by simp [writeField]; omega) (by omega)

theorem helloRequest_readFields_consumes : StepConsumes HelloRequest.readFields := by
  intro ft tag bs m m2 r h
  rcases tag with _ | (_ | (_ | t)) <;>
    simp only [HelloRequest.readFields, Option.map_eq_some'] at h
  · obtain ⟨r2, hr, he⟩ := h
    cases he
    exact skip_length hr
  · obtain ⟨⟨v, r2⟩, hr, he⟩ := h
    cases he
    exact readFieldBin_length hr
  · obtain ⟨⟨v, r2⟩, hr, he⟩ := h
    cases he
    exact readFieldI64_length hr
  · obtain ⟨r2, hr, he⟩ := h
    cases he
    exact skip_length hr

theorem helloRequest_readFields_encoded (tag : Nat) (wv : WireValue)
    (rest : List Nat) (m : HelloRequest) (hv : wv.valid) :
    HelloRequest.readFields wv.fieldType tag (wv.valueBytes ++ rest) m =
      some (m.applyField (tag, wv), rest) := by
  have hsk := skip_encoded rest hv
  rcases tag with _ | (_ | (_ | t))
  · cases wv <;>
      simp [HelloRequest.readFields, HelloRequest.applyField, hsk]
  · cases wv with
    | bin s =>
      have hrb : readBinary ((WireValue.bin s).valueBytes ++ rest) =
          some (s, rest) := readBinary_encoded rest hv.1
      simp [HelloRequest.readFields, HelloRequest.applyField,
        WireValue.fieldType, readFieldBin, hrb]
    | i64 v =>
      simp only [HelloRequest.readFields, HelloRequest.applyField,
        WireValue.fieldType, readFieldBin]
      rw [show skip FieldType.Int64 ((WireValue.i64 v).valueBytes ++ rest) =
        some rest from hsk]
      rfl
  · cases wv with
    | i64 v =>
      have hri : readInt64 ((WireValue.i64 v).valueBytes ++ rest) =
          some (int64Decode (int64Encode v), rest) := readInt64_encoded v rest
      simp [HelloRequest.readFields, HelloRequest.applyField,
        WireValue.fieldType, readFieldI64, hri,
        int64_roundtrip hv.1 hv.2]
    | bin s =>
      simp only [HelloRequest.readFields, HelloRequest.applyField,
        WireValue.fieldType, readFieldI64]
      rw [show skip FieldType.Binary ((WireValue.bin s).valueBytes ++ rest) =
        some rest from hsk]
      rfl
  · cases wv <;>
      simp [HelloRequest.readFields, HelloRequest.applyField, hsk]

theorem helloReply_readFields_consumes : StepConsumes HelloReply.readFields := by
  intro ft tag bs m m2 r h
  rcases tag with _ | (_ | t) <;>
    simp only [HelloReply.readFields, Option.map_eq_some'] at h
  · obtain ⟨r2, hr, he⟩ := h
    cases he
    exact skip_length hr
  · obtain ⟨⟨v, r2⟩, hr, he⟩ := h
    cases he
    exact readFieldI64_length hr
  · obtain ⟨r2, hr, he⟩ := h
    cases he
    exact skip_length hr

theorem helloReply_readFields_encoded (tag : Nat) (wv : WireValue)
    (rest : List Nat) (m : HelloReply) (hv : wv.valid) :
    HelloReply.readFields wv.fieldType tag (wv.valueBytes ++ rest) m =
      some (m.applyField (tag, wv), rest) := by
  have hsk := skip_encoded rest hv
  rcases tag with _ | (_ | t)
  · cases wv <;>
      simp [HelloReply.readFields, HelloReply.applyField, hsk]
  · cases wv with
    | i64 v =>
      have hri : readInt64 ((WireValue.i64 v).valueBytes ++ rest) =
          some (int64Decode (int64Encode v), rest) := readInt64_encoded v rest
      simp [HelloReply.readFields, HelloReply.applyField,
        WireValue.fieldType, readFieldI64, hri,
        int64_roundtrip hv.1 hv.2]
    | bin s =>
      simp only [HelloReply.readFields, HelloReply.applyField,
        WireValue.fieldType, readFieldI64]
      rw [show skip FieldType.Binary ((WireValue.bin s).valueBytes ++ rest) =
        some rest from hsk]
      rfl
  · cases wv <;>
      simp [HelloReply.readFields, HelloReply.applyField, hsk]

theorem goodbyeRequest_readFields_consumes :
    StepConsumes GoodbyeRequest.readFields := by
  intro ft tag bs m m2 r h
  rcases tag with _ | (_ | (_ | t)) <;>
    simp only [GoodbyeRequest.readFields, Option.map_eq_some'] at h
  · obtain ⟨r2, hr, he⟩ := h
    cases he
    exact skip_length hr
  · obtain ⟨⟨v, r2⟩, hr, he⟩ := h
    cases he
    exact readFieldBin_length hr
  · obtain ⟨⟨v, r2⟩, hr, he⟩ := h
    cases he
    exact readFieldI64_length hr
  · obtain ⟨r2, hr, he⟩ := h
    cases he
    exact skip_length hr

theorem goodbyeRequest_readFields_encoded (tag : Nat) (wv : WireValue)
    (rest : List Nat) (m : GoodbyeRequest) (hv : wv.valid) :
    GoodbyeRequest.readFields wv.fieldType tag (wv.valueBytes ++ rest) m =
      some (m.applyField (tag, wv), rest) := by
  have hsk := skip_encoded rest hv
  rcases tag with _ | (_ | (_ | t))
  · cases wv <;>
      simp [GoodbyeRequest.readFields, GoodbyeRequest.applyField, hsk]
  · cases wv with
    | bin s =>
      have hrb : readBinary ((WireValue.bin s).valueBytes ++ rest) =
          some (s, rest) := readBinary_encoded rest hv.1
      simp [GoodbyeRequest.readFields, GoodbyeRequest.applyField,
        WireValue.fieldType, readFieldBin, hrb]
    | i64 v =>
      simp only [GoodbyeRequest.readFields, GoodbyeRequest.applyField,
        WireValue.fieldType, readFieldBin]
      rw [show skip FieldType.Int64 ((WireValue.i64 v).valueBytes ++ rest) =
        some rest from hsk]
      rfl
  · cases wv with
    | i64 v =>
      have hri : readInt64 ((WireValue.i64 v).valueBytes ++ rest) =
          some (int64Decode (int64Encode v), rest) := readInt64_encoded v rest
      simp [GoodbyeRequest.readFields, GoodbyeRequest.applyField,
        WireValue.fieldType, readFieldI64, hri,
        int64_roundtrip hv.1 hv.2]
    | bin s =>
      simp only [GoodbyeRequest.readFields, GoodbyeRequest.applyField,
        WireValue.fieldType, readFieldI64]
      rw [show skip FieldType.Binary ((WireValue.bin s).valueBytes ++ rest) =
        some rest from hsk]
      rfl
  · cases wv <;>
      simp [GoodbyeRequest.readFields, GoodbyeRequest.applyField, hsk]

theorem goodbyeReply_readFields_consumes :
    StepConsumes GoodbyeReply.readFields := by
  intro ft tag bs m m2 r h
  rcases tag with _ | (_ | (_ | t)) <;>
    simp only [GoodbyeReply.readFields, Option.map_eq_some'] at h
  · obtain ⟨r2, hr, he⟩ := h
    cases he
    exact skip_length hr
  · obtain ⟨⟨v, r2⟩, hr, he⟩ := h
    cases he
    exact readFieldI64_length hr
  · obtain ⟨⟨v, r2⟩, hr, he⟩ := h
    cases he
    exact readFieldBin_length hr
  · obtain ⟨r2, hr, he⟩ := h
    cases he
    exact skip_length hr

theorem goodbyeReply_readFields_encoded (tag : Nat) (wv : WireValue)
    (rest : List Nat) (m : GoodbyeReply) (hv : wv.valid) :
    GoodbyeReply.readFields wv.fieldType tag (wv.valueBytes ++ rest) m =
      some (m.applyField (tag, wv), rest) := by
  have hsk := skip_encoded rest hv
  rcases tag with _ | (_ | (_ | t))
  · cases wv <;>
      simp [GoodbyeReply.readFields, GoodbyeReply.applyField, hsk]
  · cases wv with
    | i64 v =>
      have hri : readInt64 ((WireValue.i64 v).valueBytes ++ rest) =
          some (int64Decode (int64Encode v), rest) := readInt64_encoded v rest
      simp [GoodbyeReply.readFields, GoodbyeReply.applyField,
        WireValue.fieldType, readFieldI64, hri,
        int64_roundtrip hv.1 hv.2]
    | bin s =>
      simp only [GoodbyeReply.readFields, GoodbyeReply.applyField,
        WireValue.fieldType, readFieldI64]
      rw [show skip FieldType.Binary ((WireValue.bin s).valueBytes ++ rest) =
        some rest from hsk]
      rfl
  · cases wv with
    | bin s =>
      have hrb : readBinary ((WireValue.bin s).valueBytes ++ rest) =
          some (s, rest) := readBinary_encoded rest hv.1
      simp [GoodbyeReply.readFields, GoodbyeReply.applyField,
        WireValue.fieldType, readFieldBin, hrb]
    | i64 v =>
      simp only [GoodbyeReply.readFields, GoodbyeReply.applyField,
        WireValue.fieldType, readFieldBin]
      rw [show skip FieldType.Int64 ((WireValue.i64 v).valueBytes ++ rest) =
        some rest from hsk]
      rfl
  · cases wv <;>
      simp [GoodbyeReply.readFields, GoodbyeReply.applyField, hsk]

theorem encodeFields_cons (f : Nat × WireValue) (fs : List (Nat × WireValue)) :
    encodeFields (f :: fs) = writeField f.1 f.2 ++ encodeFields fs := by
  simp [encodeFields]

theorem structLoop_encodeFields {M : Type}
    {step : FieldType → Nat → List Nat → M → Option (M × List Nat)}
    (hc : StepConsumes step) (g : M → Nat × WireValue → M)
    (hg : ∀ tag wv rest m, validField (tag, wv) →
      step wv.fieldType tag (wv.valueBytes ++ rest) m =
        some (g m (tag, wv), rest)) :
    ∀ fs (m : M) (rest : List Nat), validFields fs →
      structLoop step m (encodeFields fs ++ rest) =
        structLoop step (fs.foldl g m) rest := by
  intro fs
  induction fs with
  | nil =>
    intro m rest h
    simp [encodeFields]
  | cons f fs ih =>
    intro m rest h
    obtain ⟨tag, wv⟩ := f
    have h1 : validField (tag, wv) := h _ (by simp)
    have h2 : validFields fs := fun f2 hf => h f2 (by simp [hf])
    rw [encodeFields_cons, List.append_assoc]
    rw [structLoop_field hc tag wv _ m _ (hg tag wv _ m h1)]
    exact ih _ _ h2

theorem structLoop_stop_nil {M : Type}
    (step : FieldType → Nat → List Nat → M → Option (M × List Nat))
    (m : M) : structLoop step m writeStop = some (m, []) := rfl

/-- Deserializing an encoded field list terminated by a stop marker folds
the field effects over the start message and consumes the whole stream. -/
theorem helloRequest_deserialize_encodeFields (fs : List (Nat × WireValue))
    (m : HelloRequest) (h : validFields fs) :
    HelloRequest.deserialize m (encodeFields fs ++ writeStop) =
      some (fs.foldl HelloRequest.applyField m, []) := by
  unfold HelloRequest.deserialize
  rw [show readStructBegin (encodeFields fs ++ writeStop) =
    encodeFields fs ++ writeStop from rfl]
  rw [structLoop_encodeFields helloRequest_readFields_consumes
    HelloRequest.applyField (fun tag wv rest m2 hvf =>
      helloRequest_readFields_encoded tag wv rest m2 hvf.2) fs m writeStop h]
  rw [structLoop_stop_nil]
  rfl

theorem helloReply_deserialize_encodeFields (fs : List (Nat × WireValue))
    (m : HelloReply) (h : validFields fs) :
    HelloReply.deserialize m (encodeFields fs ++ writeStop) =
      some (fs.foldl HelloReply.applyField m, []) := by
  unfold HelloReply.deserialize
  rw [show readStructBegin (encodeFields fs ++ writeStop) =
    encodeFields fs ++ writeStop from rfl]
  rw [structLoop_encodeFields helloReply_readFields_consumes
    HelloReply.applyField (fun tag wv rest m2 hvf =>
      helloReply_readFields_encoded tag wv rest m2 hvf.2) fs m writeStop h]
  rw [structLoop_stop_nil]
  rfl

theorem goodbyeRequest_deserialize_encodeFields (fs : List (Nat × WireValue))
    (m : GoodbyeRequest) (h : validFields fs) :
    GoodbyeRequest.deserialize m (encodeFields fs ++ writeStop) =
      some (fs.foldl GoodbyeRequest.applyField m, []) := by
  unfold GoodbyeRequest.deserialize
  rw [show readStructBegin (encodeFields fs ++ writeStop) =
    encodeFields fs ++ writeStop from rfl]
  rw [structLoop_encodeFields goodbyeRequest_readFields_consumes
    GoodbyeRequest.applyField (fun tag wv rest m2 hvf =>
      goodbyeRequest_readFields_encoded tag wv rest m2 hvf.2) fs m writeStop h]
  rw [structLoop_stop_nil]
  rfl

theorem goodbyeReply_deserialize_encodeFields (fs : List (Nat × WireValue))
    (m : GoodbyeReply) (h : validFields fs) :
    GoodbyeReply.deserialize m (encodeFields fs ++ writeStop) =
      some (fs.foldl GoodbyeReply.applyField m, []) := by
  unfold GoodbyeReply.deserialize
  rw [show readStructBegin (encodeFields fs ++ writeStop) =
    encodeFields fs ++ writeStop from rfl]
  rw [structLoop_encodeFields goodbyeReply_readFields_consumes
    GoodbyeReply.applyField (fun tag wv rest m2 hvf =>
      goodbyeReply_readFields_encoded tag wv rest m2 hvf.2) fs m writeStop h]
  rw [structLoop_stop_nil]
  rfl

/-- The serialize body of HelloRequest as an encoded field list. -/
theorem helloRequest_serialize_fields (m : HelloRequest) :
    m.serialize = encodeFields
      [(1, WireValue.bin m.key), (2, WireValue.i64 m.shardId)] ++ writeStop := by
  simp [HelloRequest.serialize, encodeFields, writeStructBegin, writeStructEnd]

/-- The serialize body of HelloReply as an encoded field list. -/
theorem helloReply_serialize_fields (m : HelloReply) :
    m.serialize = encodeFields [(1, WireValue.i64 m.result)] ++ writeStop := by
  simp [HelloReply.serialize, encodeFields, writeStructBegin, writeStructEnd]

/-- The serialize body of GoodbyeRequest as an encoded field list. -/
theorem goodbyeRequest_serialize_fields (m : GoodbyeRequest) :
    m.serialize = encodeFields
      [(1, WireValue.bin m.key), (2, WireValue.i64 m.shardId)] ++ writeStop := by
  simp [GoodbyeRequest.serialize, encodeFields, writeStructBegin,
    writeStructEnd]

/-- The serialize body of GoodbyeReply as an encoded field list. -/
theorem goodbyeReply_serialize_fields (m : GoodbyeReply) :
    m.serialize = encodeFields
      [(1, WireValue.i64 m.result), (2, WireValue.bin m.message)] ++
        writeStop := by
  simp [GoodbyeReply.serialize, encodeFields, writeStructBegin, writeStructEnd]

/-- C1: for every message m (HelloRequest, HelloReply, GoodbyeRequest,
GoodbyeReply) whose fields are within the representable range of their
types, deserializing the bytes produced by serializing m into a
default-initialized message of the same type reproduces every field of m,
consuming the whole byte stream. -/
theorem roundtrip_all_messages :
    (∀ m : HelloRequest, m.valid →
      HelloRequest.deserialize HelloRequest.default m.serialize =
        some (m, [])) ∧
    (∀ m : HelloReply, m.valid →
      HelloReply.deserialize HelloReply.default m.serialize = some (m, [])) ∧
    (∀ m : GoodbyeRequest, m.valid →
      GoodbyeRequest.deserialize GoodbyeRequest.default m.serialize =
        some (m, [])) ∧
    (∀ m : GoodbyeReply, m.valid →
      GoodbyeReply.deserialize GoodbyeReply.default m.serialize =
        some (m, [])) := by
  refine ⟨fun m hv => ?_, fun m hv => ?_, fun m hv => ?_, fun m hv => ?_⟩
  · rw [helloRequest_serialize_fields]
    rw [helloRequest_deserialize_encodeFields _ _ (by
      intro f hf
      simp only [List.mem_cons, List.mem_singleton, List.not_mem_nil,
        or_false] at hf
      rcases hf with rfl | rfl
      · exact ⟨by norm_num, hv.1⟩
      · exact ⟨by norm_num, hv.2⟩)]
    cases m
    rfl
  · rw [helloReply_serialize_fields]
    rw [helloReply_deserialize_encodeFields _ _ (by
      intro f hf
      simp only [List.mem_singleton] at hf
      subst hf
      exact ⟨by norm_num, hv⟩)]
    cases m
    rfl
  · rw [goodbyeRequest_serialize_fields]
    rw [goodbyeRequest_deserialize_encodeFields _ _ (by
      intro f hf
      simp only [List.mem_cons, List.mem_singleton, List.not_mem_nil,
        or_false] at hf
      rcases hf with rfl | rfl
      · exact ⟨by norm_num, hv.1⟩
      · exact ⟨by norm_num, hv.2⟩)]
    cases m
    rfl
  · rw [goodbyeReply_serialize_fields]
    rw [goodbyeReply_deserialize_encodeFields _ _ (by
      intro f hf
      simp only [List.mem_cons, List.mem_singleton, List.not_mem_nil,
        or_false] at hf
      rcases hf with rfl | rfl
      · exact ⟨by norm_num, hv.1⟩
      · exact ⟨by norm_num, hv.2⟩)]
    cases m
    rfl

/-- Concrete instance of the round-trip theorem. -/
theorem roundtrip_all_messages_witness :
    HelloRequest.valid { key := [104, 105], shardId := 42 } ∧
      HelloRequest.deserialize HelloRequest.default
        (HelloRequest.serialize { key := [104, 105], shardId := 42 }) =
        some ({ key := [104, 105], shardId := 42 }, []) :=
  ⟨by decide, roundtrip_all_messages.1 _ (by decide)⟩

theorem helloRequest_applyField_unknown (m : HelloRequest) (tag : Nat)
    (wv : WireValue) (h1 : tag ≠ 1) (h2 : tag ≠ 2) :
    m.applyField (tag, wv) = m := by
  rcases tag with _ | (_ | (_ | t))
  · cases wv <;> rfl
  · exact absurd rfl h1
  · exact absurd rfl h2
  · cases wv <;> rfl

theorem goodbyeReply_applyField_unknown (m : GoodbyeReply) (tag : Nat)
    (wv : WireValue) (h1 : tag ≠ 1) (h2 : tag ≠ 2) :
    m.applyField (tag, wv) = m := by
  rcases tag with _ | (_ | (_ | t))
  · cases wv <;> rfl
  · exact absurd rfl h1
  · exact absurd rfl h2
  · cases wv <;> rfl

theorem HelloRequest.applyField_key (m : HelloRequest) (tag : Nat)
    (wv : WireValue) (h1 : tag ≠ 1) :
    (m.applyField (tag, wv)).key = m.key := by
  rcases tag with _ | (_ | (_ | t))
  · cases wv <;> rfl
  · exact absurd rfl h1
  · cases wv <;> rfl
  · cases wv <;> rfl

theorem HelloRequest.applyField_shardId (m : HelloRequest) (tag : Nat)
    (wv : WireValue) (h2 : tag ≠ 2) :
    (m.applyField (tag, wv)).shardId = m.shardId := by
  rcases tag with _ | (_ | (_ | t))
  · cases wv <;> rfl
  · cases wv <;> rfl
  · exact absurd rfl h2
  · cases wv <;> rfl

theorem GoodbyeReply.applyField_result (m : GoodbyeReply) (tag : Nat)
    (wv : WireValue) (h1 : tag ≠ 1) :
    (m.applyField (tag, wv)).result = m.result := by
  rcases tag with _ | (_ | (_ | t))
  · cases wv <;> rfl
  · exact absurd rfl h1
  · cases wv <;> rfl
  · cases wv <;> rfl

theorem GoodbyeReply.applyField_message (m : GoodbyeReply) (tag : Nat)
    (wv : WireValue) (h2 : tag ≠ 2) :
    (m.applyField (tag, wv)).message = m.message := by
  rcases tag with _ | (_ | (_ | t))
  · cases wv <;> rfl
  · cases wv <;> rfl
  · exact absurd rfl h2
  · cases wv <;> rfl

theorem HelloRequest.foldl_key (fs : List (Nat × WireValue))
    (m : HelloRequest) (h : 1 ∉ fs.map Prod.fst) :
    (fs.foldl HelloRequest.applyField m).key = m.key := by
  induction fs generalizing m with
  | nil => rfl
  | cons f fs ih =>
    obtain ⟨tag, wv⟩ := f
    simp only [List.map_cons, List.mem_cons] at h
    push_neg at h
    rw [List.foldl_cons, ih _ h.2,
      HelloRequest.applyField_key m tag wv (fun he => h.1 he.symm)]

theorem HelloRequest.foldl_shardId (fs : List (Nat × WireValue))
    (m : HelloRequest) (h : 2 ∉ fs.map Prod.fst) :
    (fs.foldl HelloRequest.applyField m).shardId = m.shardId := by
  induction fs generalizing m with
  | nil => rfl
  | cons f fs ih =>
    obtain ⟨tag, wv⟩ := f
    simp only [List.map_cons, List.mem_cons] at h
    push_neg at h
    rw [List.foldl_cons, ih _ h.2,
      HelloRequest.applyField_shardId m tag wv (fun he => h.1 he.symm)]

theorem GoodbyeReply.foldl_result (fs : List (Nat × WireValue))
    (m : GoodbyeReply) (h : 1 ∉ fs.map Prod.fst) :
    (fs.foldl GoodbyeReply.applyField m).result = m.result := by
  induction fs generalizing m with
  | nil => rfl
  | cons f fs ih =>
    obtain ⟨tag, wv⟩ := f
    simp only [List.map_cons, List.mem_cons] at h
    push_neg at h
    rw [List.foldl_cons, ih _ h.2,
      GoodbyeReply.applyField_result m tag wv (fun he => h.1 he.symm)]

theorem GoodbyeReply.foldl_message (fs : List (Nat × WireValue))
    (m : GoodbyeReply) (h : 2 ∉ fs.map Prod.fst) :
    (fs.foldl GoodbyeReply.applyField m).message = m.message := by
  induction fs generalizing m with
  | nil => rfl
  | cons f fs ih =>
    obtain ⟨tag, wv⟩ := f
    simp only [List.map_cons, List.mem_cons] at h
    push_neg at h
    rw [List.foldl_cons, ih _ h.2,
      GoodbyeReply.applyField_message m tag wv (fun he => h.1 he.symm)]

theorem validFields_insert {fs1 fs2 : List (Nat × WireValue)}
    {u : Nat × WireValue} (h : validFields (fs1 ++ fs2)) (hu : validField u) :
    validFields (fs1 ++ u :: fs2) := by
  intro f hf
  rcases List.mem_append.1 hf with h1 | h2
  · exact h f (List.mem_append.2 (Or.inl h1))
  · rcases List.mem_cons.1 h2 with rfl | h3
    · exact hu
    · exact h f (List.mem_append.2 (Or.inr h3))

/-- C4: for every encoded structure containing an extra field whose tag is
unknown to the reading message type, deserialize succeeds (the unknown
field is skipped without invoking any handler) and every known field is
decoded to the same value it would have had without the extra field.
Stated for HelloRequest and GoodbyeReply, whose deserialize default
branches are cited, for an unknown-tagged field inserted anywhere in the
field sequence. -/
theorem unknown_tag_forward_compat :
    (∀ (m0 : HelloRequest) fs1 fs2 tag wv, validFields (fs1 ++ fs2) →
      validField (tag, wv) → tag ≠ 1 → tag ≠ 2 →
      HelloRequest.deserialize m0
          (encodeFields (fs1 ++ (tag, wv) :: fs2) ++ writeStop) =
        HelloRequest.deserialize m0 (encodeFields (fs1 ++ fs2) ++ writeStop) ∧
      (HelloRequest.deserialize m0
          (encodeFields (fs1 ++ (tag, wv) :: fs2) ++ writeStop)).isSome =
        true) ∧
    (∀ (m0 : GoodbyeReply) fs1 fs2 tag wv, validFields (fs1 ++ fs2) →
      validField (tag, wv) → tag ≠ 1 → tag ≠ 2 →
      GoodbyeReply.deserialize m0
          (encodeFields (fs1 ++ (tag, wv) :: fs2) ++ writeStop) =
        GoodbyeReply.deserialize m0 (encodeFields (fs1 ++ fs2) ++ writeStop) ∧
      (GoodbyeReply.deserialize m0
          (encodeFields (fs1 ++ (tag, wv) :: fs2) ++ writeStop)).isSome =
        true) := by
  constructor
  · intro m0 fs1 fs2 tag wv h hu h1 h2
    have hins := validFields_insert h hu
    rw [helloRequest_deserialize_encodeFields _ _ hins,
      helloRequest_deserialize_encodeFields _ _ h]
    refine ⟨?_, rfl⟩
    simp only [List.foldl_append, List.foldl_cons]
    rw [helloRequest_applyField_unknown _ tag wv h1 h2]
  · intro m0 fs1 fs2 tag wv h hu h1 h2
    have hins := validFields_insert h hu
    rw [goodbyeReply_deserialize_encodeFields _ _ hins,
      goodbyeReply_deserialize_encodeFields _ _ h]
    refine ⟨?_, rfl⟩
    simp only [List.foldl_append, List.foldl_cons]
    rw [goodbyeReply_applyField_unknown _ tag wv h1 h2]

/-- Concrete instance of the forward-compatibility theorem. -/
theorem unknown_tag_forward_compat_witness :
    validField (7, WireValue.i64 5) ∧
      (HelloRequest.deserialize HelloRequest.default
          (encodeFields ([] ++ (7, WireValue.i64 5) :: []) ++ writeStop) =
        HelloRequest.deserialize HelloRequest.default
          (encodeFields ([] ++ []) ++ writeStop) ∧
      (HelloRequest.deserialize HelloRequest.default
          (encodeFields ([] ++ (7, WireValue.i64 5) :: []) ++
            writeStop)).isSome = true) :=
  ⟨by decide, unknown_tag_forward_compat.1 HelloRequest.default [] [] 7
    (WireValue.i64 5) (by decide) (by decide) (by decide) (by decide)⟩

/-- C10: deserialize mutates only the field slots whose tags appear in the
encoded structure; a slot whose tag is absent from the wire bytes retains
the exact (possibly non-default) value it held before the call.  Stated
for both slots of HelloRequest and of GoodbyeReply. -/
theorem deserialize_frame :
    (∀ (m0 : HelloRequest) fs, validFields fs → 1 ∉ fs.map Prod.fst →
      ∃ p, HelloRequest.deserialize m0 (encodeFields fs ++ writeStop) =
          some p ∧ p.1.key = m0.key ∧ p.2 = []) ∧
    (∀ (m0 : HelloRequest) fs, validFields fs → 2 ∉ fs.map Prod.fst →
      ∃ p, HelloRequest.deserialize m0 (encodeFields fs ++ writeStop) =
          some p ∧ p.1.shardId = m0.shardId ∧ p.2 = []) ∧
    (∀ (m0 : GoodbyeReply) fs, validFields fs → 1 ∉ fs.map Prod.fst →
      ∃ p, GoodbyeReply.deserialize m0 (encodeFields fs ++ writeStop) =
          some p ∧ p.1.result = m0.result ∧ p.2 = []) ∧
    (∀ (m0 : GoodbyeReply) fs, validFields fs → 2 ∉ fs.map Prod.fst →
      ∃ p, GoodbyeReply.deserialize m0 (encodeFields fs ++ writeStop) =
          some p ∧ p.1.message = m0.message ∧ p.2 = []) := by
  refine ⟨fun m0 fs h ht => ?_, fun m0 fs h ht => ?_,
    fun m0 fs h ht => ?_, fun m0 fs h ht => ?_⟩
  · exact ⟨(fs.foldl HelloRequest.applyField m0, []),
      helloRequest_deserialize_encodeFields fs m0 h,
      HelloRequest.foldl_key fs m0 ht, rfl⟩
  · exact ⟨(fs.foldl HelloRequest.applyField m0, []),
      helloRequest_deserialize_encodeFields fs m0 h,
      HelloRequest.foldl_shardId fs m0 ht, rfl⟩
  · exact ⟨(fs.foldl GoodbyeReply.applyField m0, []),
      goodbyeReply_deserialize_encodeFields fs m0 h,
      GoodbyeReply.foldl_result fs m0 ht, rfl⟩
  · exact ⟨(fs.foldl GoodbyeReply.applyField m0, []),
      goodbyeReply_deserialize_encodeFields fs m0 h,
      GoodbyeReply.foldl_message fs m0 ht, rfl⟩

/-- Concrete instance of the frame theorem: a non-default key survives a
wire structure that only carries tag 2. -/
theorem deserialize_frame_witness :
    validFields [(2, WireValue.i64 11)] ∧
      ∃ p, HelloRequest.deserialize { key := [9], shardId := 1 }
          (encodeFields [(2, WireValue.i64 11)] ++ writeStop) =
          some p ∧ p.1.key = [9] ∧ p.2 = [] :=
  ⟨by decide, deserialize_frame.1 { key := [9], shardId := 1 }
    [(2, WireValue.i64 11)] (by decide) (by decide)⟩

theorem helloRequest_deserialize_field_cons (tag : Nat) (wv : WireValue)
    (rest : List Nat) (m : HelloRequest) (h : wv.valid) :
    HelloRequest.deserialize m (writeField tag wv ++ rest) =
      HelloRequest.deserialize (m.applyField (tag, wv)) rest := by
  unfold HelloRequest.deserialize readStructBegin
  rw [structLoop_field helloRequest_readFields_consumes tag wv rest m _
    (helloRequest_readFields_encoded tag wv rest m h)]

theorem goodbyeReply_deserialize_field_cons (tag : Nat) (wv : WireValue)
    (rest : List Nat) (m : GoodbyeReply) (h : wv.valid) :
    GoodbyeReply.deserialize m (writeField tag wv ++ rest) =
      GoodbyeReply.deserialize (m.applyField (tag, wv)) rest := by
  unfold GoodbyeReply.deserialize readStructBegin
  rw [structLoop_field goodbyeReply_readFields_consumes tag wv rest m _
    (goodbyeReply_readFields_encoded tag wv rest m h)]

/-- C7: a field whose tag is known to the reading message type but whose
declared wire type does not match the type expected for that slot is
skipped, consuming exactly its bytes (the decode continues at the bytes
right after the field) without invoking the slot read handler (the
message, including that slot, is unchanged).  Stated for both tags of
HelloRequest and of GoodbyeReply. -/
theorem type_mismatch_skipped :
    (∀ (m0 : HelloRequest) (rest : List Nat) (v : Int), validI64 v →
      HelloRequest.deserialize m0 (writeField 1 (WireValue.i64 v) ++ rest) =
        HelloRequest.deserialize m0 rest) ∧
    (∀ (m0 : HelloRequest) (rest s : List Nat), validBin s →
      HelloRequest.deserialize m0 (writeField 2 (WireValue.bin s) ++ rest) =
        HelloRequest.deserialize m0 rest) ∧
    (∀ (m0 : GoodbyeReply) (rest s : List Nat), validBin s →
      GoodbyeReply.deserialize m0 (writeField 1 (WireValue.bin s) ++ rest) =
        GoodbyeReply.deserialize m0 rest) ∧
    (∀ (m0 : GoodbyeReply) (rest : List Nat) (v : Int), validI64 v →
      GoodbyeReply.deserialize m0 (writeField 2 (WireValue.i64 v) ++ rest) =
        GoodbyeReply.deserialize m0 rest) := by
  refine ⟨fun m0 rest v hv => ?_, fun m0 rest s hs => ?_,
    fun m0 rest s hs => ?_, fun m0 rest v hv => ?_⟩
  · rw [helloRequest_deserialize_field_cons 1 (WireValue.i64 v) rest m0 hv]
    rfl
  · rw [helloRequest_deserialize_field_cons 2 (WireValue.bin s) rest m0 hs]
    rfl
  · rw [goodbyeReply_deserialize_field_cons 1 (WireValue.bin s) rest m0 hs]
    rfl
  · rw [goodbyeReply_deserialize_field_cons 2 (WireValue.i64 v) rest m0 hv]
    rfl

/-- Concrete instance of the type-mismatch theorem. -/
theorem type_mismatch_skipped_witness :
    validI64 3 ∧
      HelloRequest.deserialize HelloRequest.default
          (writeField 1 (WireValue.i64 3) ++ writeStop) =
        HelloRequest.deserialize HelloRequest.default writeStop :=
  ⟨by decide, type_mismatch_skipped.1 HelloRequest.default writeStop 3
    (by decide)⟩

theorem summaryStep_consumes : StepConsumes summaryStep := by
  intro ft tag bs m m2 r h
  simp only [summaryStep, Option.map_eq_some'] at h
  obtain ⟨r2, hr, he⟩ := h
  cases he
  exact skip_length hr

theorem summaryStep_encoded (tag : Nat) (wv : WireValue) (rest : List Nat)
    (acc : List (FieldType × Nat)) (hv : wv.valid) :
    summaryStep wv.fieldType tag (wv.valueBytes ++ rest) acc =
      some (acc ++ [(wv.fieldType, tag)], rest) := by
  unfold summaryStep
  rw [skip_encoded rest hv]
  rfl

theorem foldl_append_singleton {A B : Type} (g : A → B) :
    ∀ (fs : List A) (acc : List B),
      fs.foldl (fun a f => a ++ [g f]) acc = acc ++ fs.map g := by
  intro fs
  induction fs with
  | nil => intro acc; simp
  | cons f fs ih => intro acc; simp [ih]

theorem fieldSummary_encodeFields (fs : List (Nat × WireValue))
    (h : validFields fs) :
    fieldSummary (encodeFields fs ++ writeStop) =
      some (fs.map fun f => (f.2.fieldType, f.1), []) := by
  unfold fieldSummary
  rw [structLoop_encodeFields summaryStep_consumes
    (fun acc f => acc ++ [(f.2.fieldType, f.1)])
    (fun tag wv rest acc hvf => summaryStep_encoded tag wv rest acc hvf.2)
    fs [] writeStop h]
  rw [structLoop_stop_nil]
  rw [foldl_append_singleton (fun f : Nat × WireValue => (f.2.fieldType, f.1))]
  rfl

/-- C8: for every message within representable range, the serialized byte
stream consists of exactly the fields of the schema of its type, each
written exactly once and unconditionally (in particular also at default
values, since the statement holds for every m), followed by exactly one
stop marker as the very last byte (the remainder after the stop marker is
empty). -/
theorem serialize_fields_then_stop :
    (∀ m : HelloRequest, m.valid →
      fieldSummary m.serialize =
        some ([(FieldType.Binary, 1), (FieldType.Int64, 2)], [])) ∧
    (∀ m : HelloReply, m.valid →
      fieldSummary m.serialize = some ([(FieldType.Int64, 1)], [])) ∧
    (∀ m : GoodbyeRequest, m.valid →
      fieldSummary m.serialize =
        some ([(FieldType.Binary, 1), (FieldType.Int64, 2)], [])) ∧
    (∀ m : GoodbyeReply, m.valid →
      fieldSummary m.serialize =
        some ([(FieldType.Int64, 1), (FieldType.Binary, 2)], [])) := by
  refine ⟨fun m hv => ?_, fun m hv => ?_, fun m hv => ?_, fun m hv => ?_⟩
  · rw [helloRequest_serialize_fields]
    rw [fieldSummary_encodeFields _ (by
      intro f hf
      simp only [List.mem_cons, List.mem_singleton, List.not_mem_nil,
        or_false] at hf
      rcases hf with rfl | rfl
      · exact ⟨by norm_num, hv.1⟩
      · exact ⟨by norm_num, hv.2⟩)]
    rfl
  · rw [helloReply_serialize_fields]
    rw [fieldSummary_encodeFields _ (by
      intro f hf
      simp only [List.mem_singleton] at hf
      subst hf
      exact ⟨by norm_num, hv⟩)]
    rfl
  · rw [goodbyeRequest_serialize_fields]
    rw [fieldSummary_encodeFields _ (by
      intro f hf
      simp only [List.mem_cons, List.mem_singleton, List.not_mem_nil,
        or_false] at hf
      rcases hf with rfl | rfl
      · exact ⟨by norm_num, hv.1⟩
      · exact ⟨by norm_num, hv.2⟩)]
    rfl
  · rw [goodbyeReply_serialize_fields]
    rw [fieldSummary_encodeFields _ (by
      intro f hf
      simp only [List.mem_cons, List.mem_singleton, List.not_mem_nil,
        or_false] at hf
      rcases hf with rfl | rfl
      · exact ⟨by norm_num, hv.1⟩
      · exact ⟨by norm_num, hv.2⟩)]
    rfl

/-- Concrete instance of the serialize-layout theorem, at an all-default
message: both fields are still written, then one stop marker. -/
theorem serialize_fields_then_stop_witness :
    HelloRequest.valid HelloRequest.default ∧
      fieldSummary (HelloRequest.serialize HelloRequest.default) =
        some ([(FieldType.Binary, 1), (FieldType.Int64, 2)], []) :=
  ⟨by decide, serialize_fields_then_stop.1 HelloRequest.default (by decide)⟩

theorem readBytesN_short {n : Nat} {bs : List Nat} (h : bs.length < n) :
    readBytesN n bs = none := by
  unfold readBytesN
  rw [if_neg (by omega)]

theorem readFieldHeader_cons (wv : WireValue) (tag : Nat) (X : List Nat) :
    readFieldHeader (wv.fieldType.code :: tag :: X) =
      some ((wv.fieldType, tag), X) := by
  cases wv <;> rfl

theorem readFieldHeader_code_single (wv : WireValue) :
    readFieldHeader [wv.fieldType.code] = none := by
  cases wv <;> rfl

theorem structLoop_headerNone {M : Type}
    {step : FieldType → Nat → List Nat → M → Option (M × List Nat)}
    (m : M) {bs : List Nat} (h : readFieldHeader bs = none) :
    structLoop step m bs = none := by
  unfold structLoop
  conv_lhs => rw [structLoopAux]
  rw [h]

theorem structLoop_stepNone {M : Type}
    {step : FieldType → Nat → List Nat → M → Option (M × List Nat)}
    (m : M) {bs : List Nat} {ft : FieldType} {tag : Nat} {rest : List Nat}
    (hh : readFieldHeader bs = some ((ft, tag), rest))
    (hft : ft ≠ FieldType.Stop) (hst : step ft tag rest m = none) :
    structLoop step m bs = none := by
  unfold structLoop
  conv_lhs => rw [structLoopAux]
  rw [hh]
  dsimp only
  rw [if_neg hft, hst]

theorem skip_take_none {wv : WireValue} (hv : wv.valid) {j : Nat}
    (hj : j < wv.valueBytes.length) :
    skip wv.fieldType (wv.valueBytes.take j) = none := by
  cases wv with
  | i64 v =>
    simp only [WireValue.valueBytes, int64Encode_length, List.length_take,
      lt_min_iff] at hj
    show Option.map Prod.snd (readBytesN 8 ((int64Encode v).take j)) = none
    rw [readBytesN_short (by rw [List.length_take, int64Encode_length]; omega)]
    rfl
  | bin s =>
    simp only [WireValue.valueBytes, List.length_append,
      natToBytes_length] at hj
    rcases Nat.lt_or_ge j 4 with h4 | h4
    · show skip FieldType.Binary
        ((natToBytes 4 s.length ++ s).take j) = none
      unfold skip
      dsimp only
      rw [readBytesN_short (by rw [List.length_take]; simp [natToBytes_length]; omega)]
    · have ht : (natToBytes 4 s.length ++ s).take j =
          natToBytes 4 s.length ++ s.take (j - 4) := by
        rw [List.take_append_eq_append_take,
          List.take_of_length_le (by rw [natToBytes_length]; omega),
          natToBytes_length]
      show skip FieldType.Binary ((natToBytes 4 s.length ++ s).take j) = none
      rw [ht]
      unfold skip
      rw [readBytesN_exact (natToBytes_length 4 s.length)]
      show Option.map Prod.snd
        (readBytesN (bytesToNat (natToBytes 4 s.length)) (s.take (j - 4))) =
        none
      rw [bytesToNat_natToBytes]
      rw [Nat.mod_eq_of_lt (by
        have := hv.1
        norm_num at this ⊢
        omega)]
      rw [readBytesN_short (by rw [List.length_take]; omega)]
      rfl

theorem readBinary_take_none {s : List Nat} (hv : validBin s) {j : Nat}
    (hj : j < (WireValue.bin s).valueBytes.length) :
    readBinary ((WireValue.bin s).valueBytes.take j) = none := by
  simp only [WireValue.valueBytes, List.length_append,
    natToBytes_length] at hj
  rcases Nat.lt_or_ge j 4 with h4 | h4
  · show readBinary ((natToBytes 4 s.length ++ s).take j) = none
    unfold readBinary
    rw [readBytesN_short (by rw [List.length_take]; simp [natToBytes_length]; omega)]
  · have ht : (natToBytes 4 s.length ++ s).take j =
        natToBytes 4 s.length ++ s.take (j - 4) := by
      rw [List.take_append_eq_append_take,
        List.take_of_length_le (by rw [natToBytes_length]; omega),
        natToBytes_length]
    show readBinary ((natToBytes 4 s.length ++ s).take j) = none
    rw [ht]
    unfold readBinary
    rw [readBytesN_exact (natToBytes_length 4 s.length)]
    show readBytesN (bytesToNat (natToBytes 4 s.length)) (s.take (j - 4)) =
      none
    rw [bytesToNat_natToBytes]
    rw [Nat.mod_eq_of_lt (by
      have := hv.1
      norm_num at this ⊢
      omega)]
    exact readBytesN_short (by rw [List.length_take]; omega)

theorem readInt64_take_none (v : Int) {j : Nat} (hj : j < 8) :
    readInt64 ((int64Encode v).take j) = none := by
  unfold readInt64
  rw [readBytesN_short (by rw [List.length_take, int64Encode_length]; omega)]
  rfl

theorem readFieldBin_take_none (old : List Nat) {wv : WireValue}
    (hv : wv.valid) {j : Nat} (hj : j < wv.valueBytes.length) :
    readFieldBin old wv.fieldType (wv.valueBytes.take j) = none := by
  cases wv with
  | bin s => exact readBinary_take_none hv hj
  | i64 v =>
    show Option.map (fun r => (old, r))
      (skip (WireValue.i64 v).fieldType ((WireValue.i64 v).valueBytes.take j))
      = none
    rw [skip_take_none hv hj]
    rfl

theorem readFieldI64_take_none (old : Int) {wv : WireValue}
    (hv : wv.valid) {j : Nat} (hj : j < wv.valueBytes.length) :
    readFieldI64 old wv.fieldType (wv.valueBytes.take j) = none := by
  cases wv with
  | i64 v =>
    show readInt64 ((WireValue.i64 v).valueBytes.take j) = none
    have hj8 : j < 8 := by
      simpa [WireValue.valueBytes, int64Encode_length] using hj
    exact readInt64_take_none v hj8
  | bin s =>
    show Option.map (fun r => (old, r))
      (skip (WireValue.bin s).fieldType ((WireValue.bin s).valueBytes.take j))
      = none
    rw [skip_take_none hv hj]
    rfl

theorem helloRequest_readFields_take_none (tag : Nat) {wv : WireValue}
    (m : HelloRequest) {j : Nat} (hv : wv.valid)
    (hj : j < wv.valueBytes.length) :
    HelloRequest.readFields wv.fieldType tag (wv.valueBytes.take j) m =
      none := by
  rcases tag with _ | (_ | (_ | t))
  · show Option.map (fun r => (m, r))
      (skip wv.fieldType (wv.valueBytes.take j)) = none
    rw [skip_take_none hv hj]
    rfl
  · show Option.map (fun p => (HelloRequest.mk p.1 m.shardId, p.2))
      (readFieldBin m.key wv.fieldType (wv.valueBytes.take j)) = none
    rw [readFieldBin_take_none m.key hv hj]
    rfl
  · show Option.map (fun p => (HelloRequest.mk m.key p.1, p.2))
      (readFieldI64 m.shardId wv.fieldType (wv.valueBytes.take j)) = none
    rw [readFieldI64_take_none m.shardId hv hj]
    rfl
  · show Option.map (fun r => (m, r))
      (skip wv.fieldType (wv.valueBytes.take j)) = none
    rw [skip_take_none hv hj]
    rfl

theorem helloReply_readFields_take_none (tag : Nat) {wv : WireValue}
    (m : HelloReply) {j : Nat} (hv : wv.valid)
    (hj : j < wv.valueBytes.length) :
    HelloReply.readFields wv.fieldType tag (wv.valueBytes.take j) m =
      none := by
  rcases tag with _ | (_ | t)
  · show Option.map (fun r => (m, r))
      (skip wv.fieldType (wv.valueBytes.take j)) = none
    rw [skip_take_none hv hj]
    rfl
  · show Option.map (fun p => (HelloReply.mk p.1, p.2))
      (readFieldI64 m.result wv.fieldType (wv.valueBytes.take j)) = none
    rw [readFieldI64_take_none m.result hv hj]
    rfl
  · show Option.map (fun r => (m, r))
      (skip wv.fieldType (wv.valueBytes.take j)) = none
    rw [skip_take_none hv hj]
    rfl

theorem goodbyeRequest_readFields_take_none (tag : Nat) {wv : WireValue}
    (m : GoodbyeRequest) {j : Nat} (hv : wv.valid)
    (hj : j < wv.valueBytes.length) :
    GoodbyeRequest.readFields wv.fieldType tag (wv.valueBytes.take j) m =
      none := by
  rcases tag with _ | (_ | (_ | t))
  · show Option.map (fun r => (m, r))
      (skip wv.fieldType (wv.valueBytes.take j)) = none
    rw [skip_take_none hv hj]
    rfl
  · show Option.map (fun p => (GoodbyeRequest.mk p.1 m.shardId, p.2))
      (readFieldBin m.key wv.fieldType (wv.valueBytes.take j)) = none
    rw [readFieldBin_take_none m.key hv hj]
    rfl
  · show Option.map (fun p => (GoodbyeRequest.mk m.key p.1, p.2))
      (readFieldI64 m.shardId wv.fieldType (wv.valueBytes.take j)) = none
    rw [readFieldI64_take_none m.shardId hv hj]
    rfl
  · show Option.map (fun r => (m, r))
      (skip wv.fieldType (wv.valueBytes.take j)) = none
    rw [skip_take_none hv hj]
    rfl

theorem goodbyeReply_readFields_take_none (tag : Nat) {wv : WireValue}
    (m : GoodbyeReply) {j : Nat} (hv : wv.valid)
    (hj : j < wv.valueBytes.length) :
    GoodbyeReply.readFields wv.fieldType tag (wv.valueBytes.take j) m =
      none := by
  rcases tag with _ | (_ | (_ | t))
  · show Option.map (fun r => (m, r))
      (skip wv.fieldType (wv.valueBytes.take j)) = none
    rw [skip_take_none hv hj]
    rfl
  · show Option.map (fun p => (GoodbyeReply.mk p.1 m.message, p.2))
      (readFieldI64 m.result wv.fieldType (wv.valueBytes.take j)) = none
    rw [readFieldI64_take_none m.result hv hj]
    rfl
  · show Option.map (fun p => (GoodbyeReply.mk m.result p.1, p.2))
      (readFieldBin m.message wv.fieldType (wv.valueBytes.take j)) = none
    rw [readFieldBin_take_none m.message hv hj]
    rfl
  · show Option.map (fun r => (m, r))
      (skip wv.fieldType (wv.valueBytes.take j)) = none
    rw [skip_take_none hv hj]
    rfl

theorem encodeFields_cons2 (tag : Nat) (wv : WireValue)
    (fs : List (Nat × WireValue)) :
    encodeFields ((tag, wv) :: fs) = writeField tag wv ++ encodeFields fs := by
  simp [encodeFields]

theorem structLoop_take_none {M : Type}
    {step : FieldType → Nat → List Nat → M → Option (M × List Nat)}
    (hc : StepConsumes step)
    (hfail : ∀ tag (wv : WireValue) (m : M) (j : Nat), wv.valid →
      j < wv.valueBytes.length →
      step wv.fieldType tag (wv.valueBytes.take j) m = none)
    (henc : ∀ tag wv rest (m : M), validField (tag, wv) →
      ∃ m2, step wv.fieldType tag (wv.valueBytes ++ rest) m = some (m2, rest)) :
    ∀ fs (m : M) (k : Nat), validFields fs →
      k < (encodeFields fs ++ writeStop).length →
      structLoop step m ((encodeFields fs ++ writeStop).take k) = none := by
  intro fs
  induction fs with
  | nil =>
    intro m k h hk
    have hk0 : k = 0 := by
      simp [encodeFields, writeStop] at hk
      omega
    subst hk0
    exact structLoop_nil step m
  | cons f fs ih =>
    intro m k h hk
    obtain ⟨tag, wv⟩ := f
    have h1 : validField (tag, wv) := h _ (by simp)
    have h2 : validFields fs := fun f2 hm => h f2 (by simp [hm])
    rw [encodeFields_cons2 tag wv fs, List.append_assoc] at hk ⊢
    have hwf : (writeField tag wv).length = wv.valueBytes.length + 2 := by
      simp [writeField]
    rcases Nat.lt_or_ge k 1 with hk1 | hk1
    · have : k = 0 := by omega
      subst this
      exact structLoop_nil step m
    rcases Nat.lt_or_ge k 2 with hk2 | hk2
    · have : k = 1 := by omega
      subst this
      have ht : (writeField tag wv ++
          (encodeFields fs ++ writeStop)).take 1 = [wv.fieldType.code] := rfl
      rw [ht]
      exact structLoop_headerNone m (readFieldHeader_code_single wv)
    rcases Nat.lt_or_ge k (writeField tag wv).length with hkL | hkL
    · obtain ⟨k2, rfl⟩ : ∃ k2, k = k2 + 2 := ⟨k - 2, by omega⟩
      have hj : k2 < wv.valueBytes.length := by omega
      have ht : (writeField tag wv ++
          (encodeFields fs ++ writeStop)).take (k2 + 2) =
          wv.fieldType.code :: tag :: wv.valueBytes.take k2 := by
        show (wv.fieldType.code :: tag ::
          (wv.valueBytes ++ (encodeFields fs ++ writeStop))).take (k2 + 2) = _
        simp only [List.take_succ_cons]
        rw [List.take_append_eq_append_take,
          Nat.sub_eq_zero_of_le (Nat.le_of_lt hj), List.take_zero,
          List.append_nil]
      rw [ht]
      exact structLoop_stepNone m (readFieldHeader_cons wv tag _)
        (by cases wv <;> simp [WireValue.fieldType])
        (hfail tag wv m k2 h1.2 hj)
    · have hk' : k - (writeField tag wv).length <
          (encodeFields fs ++ writeStop).length := by
        rw [List.length_append] at hk
        omega
      have ht : (writeField tag wv ++ (encodeFields fs ++ writeStop)).take k =
          writeField tag wv ++
            ((encodeFields fs ++ writeStop).take
              (k - (writeField tag wv).length)) := by
        rw [List.take_append_eq_append_take, List.take_of_length_le hkL]
      rw [ht]
      obtain ⟨m2, hm2⟩ := henc tag wv _ m h1
      rw [structLoop_field hc tag wv _ m m2 hm2]
      exact ih m2 _ h2 hk'

theorem helloRequest_deserialize_take_none (fs : List (Nat × WireValue))
    (m0 : HelloRequest) (k : Nat) (h : validFields fs)
    (hk : k < (encodeFields fs ++ writeStop).length) :
    HelloRequest.deserialize m0 ((encodeFields fs ++ writeStop).take k) =
      none := by
  unfold HelloRequest.deserialize readStructBegin
  rw [structLoop_take_none helloRequest_readFields_consumes
    (fun tag wv m j hv hj => helloRequest_readFields_take_none tag m hv hj)
    (fun tag wv rest m hvf => ⟨m.applyField (tag, wv),
      helloRequest_readFields_encoded tag wv rest m hvf.2⟩)
    fs m0 k h hk]
  rfl

theorem helloReply_deserialize_take_none (fs : List (Nat × WireValue))
    (m0 : HelloReply) (k : Nat) (h : validFields fs)
    (hk : k < (encodeFields fs ++ writeStop).length) :
    HelloReply.deserialize m0 ((encodeFields fs ++ writeStop).take k) =
      none := by
  unfold HelloReply.deserialize readStructBegin
  rw [structLoop_take_none helloReply_readFields_consumes
    (fun tag wv m j hv hj => helloReply_readFields_take_none tag m hv hj)
    (fun tag wv rest m hvf => ⟨m.applyField (tag, wv),
      helloReply_readFields_encoded tag wv rest m hvf.2⟩)
    fs m0 k h hk]
  rfl

theorem goodbyeRequest_deserialize_take_none (fs : List (Nat × WireValue))
    (m0 : GoodbyeRequest) (k : Nat) (h : validFields fs)
    (hk : k < (encodeFields fs ++ writeStop).length) :
    GoodbyeRequest.deserialize m0 ((encodeFields fs ++ writeStop).take k) =
      none := by
  unfold GoodbyeRequest.deserialize readStructBegin
  rw [structLoop_take_none goodbyeRequest_readFields_consumes
    (fun tag wv m j hv hj => goodbyeRequest_readFields_take_none tag m hv hj)
    (fun tag wv rest m hvf => ⟨m.applyField (tag, wv),
      goodbyeRequest_readFields_encoded tag wv rest m hvf.2⟩)
    fs m0 k h hk]
  rfl

theorem goodbyeReply_deserialize_take_none (fs : List (Nat × WireValue))
    (m0 : GoodbyeReply) (k : Nat) (h : validFields fs)
    (hk : k < (encodeFields fs ++ writeStop).length) :
    GoodbyeReply.deserialize m0 ((encodeFields fs ++ writeStop).take k) =
      none := by
  unfold GoodbyeReply.deserialize readStructBegin
  rw [structLoop_take_none goodbyeReply_readFields_consumes
    (fun tag wv m j hv hj => goodbyeReply_readFields_take_none tag m hv hj)
    (fun tag wv rest m hvf => ⟨m.applyField (tag, wv),
      goodbyeReply_readFields_encoded tag wv rest m hvf.2⟩)
    fs m0 k h hk]
  rfl

/-- C9: truncating the serialized bytes of any message anywhere strictly
before the stop marker (the last byte) makes deserialize fail; the decode
never returns an apparently successful partial message, whatever message
value the decode started from. -/
theorem truncation_fails :
    (∀ (m m0 : HelloRequest) (k : Nat), m.valid → k < m.serialize.length →
      HelloRequest.deserialize m0 (m.serialize.take k) = none) ∧
    (∀ (m m0 : HelloReply) (k : Nat), m.valid → k < m.serialize.length →
      HelloReply.deserialize m0 (m.serialize.take k) = none) ∧
    (∀ (m m0 : GoodbyeRequest) (k : Nat), m.valid → k < m.serialize.length →
      GoodbyeRequest.deserialize m0 (m.serialize.take k) = none) ∧
    (∀ (m m0 : GoodbyeReply) (k : Nat), m.valid → k < m.serialize.length →
      GoodbyeReply.deserialize m0 (m.serialize.take k) = none) := by
  refine ⟨fun m m0 k hv hk => ?_, fun m m0 k hv hk => ?_,
    fun m m0 k hv hk => ?_, fun m m0 k hv hk => ?_⟩
  · rw [helloRequest_serialize_fields] at hk ⊢
    exact helloRequest_deserialize_take_none _ m0 k (by
      intro f hf
      simp only [List.mem_cons, List.mem_singleton, List.not_mem_nil,
        or_false] at hf
      rcases hf with rfl | rfl
      · exact ⟨by norm_num, hv.1⟩
      · exact ⟨by norm_num, hv.2⟩) hk
  · rw [helloReply_serialize_fields] at hk ⊢
    exact helloReply_deserialize_take_none _ m0 k (by
      intro f hf
      simp only [List.mem_singleton] at hf
      subst hf
      exact ⟨by norm_num, hv⟩) hk
  · rw [goodbyeRequest_serialize_fields] at hk ⊢
    exact goodbyeRequest_deserialize_take_none _ m0 k (by
      intro f hf
      simp only [List.mem_cons, List.mem_singleton, List.not_mem_nil,
        or_false] at hf
      rcases hf with rfl | rfl
      · exact ⟨by norm_num, hv.1⟩
      · exact ⟨by norm_num, hv.2⟩) hk
  · rw [goodbyeReply_serialize_fields] at hk ⊢
    exact goodbyeReply_deserialize_take_none _ m0 k (by
      intro f hf
      simp only [List.mem_cons, List.mem_singleton, List.not_mem_nil,
        or_false] at hf
      rcases hf with rfl | rfl
      · exact ⟨by norm_num, hv.1⟩
      · exact ⟨by norm_num, hv.2⟩) hk

/-- Concrete instance of the truncation theorem: cutting the default
HelloRequest stream five bytes in makes the decode fail. -/
theorem truncation_fails_witness :
    HelloRequest.valid HelloRequest.default ∧
      5 < (HelloRequest.serialize HelloRequest.default).length ∧
      HelloRequest.deserialize HelloRequest.default
        ((HelloRequest.serialize HelloRequest.default).take 5) = none :=
  ⟨by decide, by decide, truncation_fails.1 HelloRequest.default
    HelloRequest.default 5 (by decide) (by decide)⟩

/-- C2: when a Client Handle is destroyed while requests are outstanding,
every request that has not yet received on-reply receives on-cancel
exactly once (resolved synchronously by the destroy step, hence within a
bounded time), and afterwards every record of the destroyed handle has
exactly one terminal callback: never both on-reply and on-cancel, and
never neither. -/
theorem premature_disconnect_exactly_once :
    ∀ h : ClientHandle, (∀ r ∈ h.inflight, r.replies + r.cancels ≤ 1) →
      (∀ r ∈ h.inflight, r.replies = 0 →
        (onCancelRecord r).cancels = 1 ∧ (onCancelRecord r).replies = 0) ∧
      (∀ r ∈ h.inflight, r.replies = 1 → onCancelRecord r = r) ∧
      (∀ r2 ∈ (destroyClient h).inflight,
        r2.replies + r2.cancels = 1 ∧ ¬(r2.replies ≥ 1 ∧ r2.cancels ≥ 1)) := by
  intro h hinv
  refine ⟨fun r hr hr0 => ?_, fun r hr hr1 => ?_, fun r2 hr2 => ?_⟩
  · have := hinv r hr
    unfold onCancelRecord
    split
    · rename_i hcl
      refine ⟨?_, hr0⟩
      show r.cancels + 1 = 1
      have := hcl.2
      omega
    · rename_i hcl
      simp only [not_and] at hcl
      have hc1 : r.cancels = 1 := by
        have := hcl hr0
        omega
      exact ⟨hc1, hr0⟩
  · have := hinv r hr
    unfold onCancelRecord
    rw [if_neg (by omega)]
  · simp only [destroyClient, List.mem_map] at hr2
    obtain ⟨r, hr, rfl⟩ := hr2
    have := hinv r hr
    unfold onCancelRecord
    split
    · rename_i hcl
      simp only []
      omega
    · rename_i hcl
      simp only [not_and] at hcl
      constructor
      · rcases Nat.eq_zero_or_pos r.replies with h0 | h1
        · have := hcl h0
          omega
        · omega
      · rcases Nat.eq_zero_or_pos r.replies with h0 | h1
        · have := hcl h0
          omega
        · omega

/-- Concrete instance of the premature-disconnect theorem: one pending
and one already-replied request. -/
theorem premature_disconnect_exactly_once_witness :
    (∀ r ∈ (ClientHandle.mk [{ replies := 0, cancels := 0 },
        { replies := 1, cancels := 0 }]).inflight,
      r.replies + r.cancels ≤ 1) ∧
    (∀ r2 ∈ (destroyClient (ClientHandle.mk
        [{ replies := 0, cancels := 0 },
         { replies := 1, cancels := 0 }])).inflight,
      r2.replies + r2.cancels = 1 ∧ ¬(r2.replies ≥ 1 ∧ r2.cancels ≥ 1)) :=
  ⟨by decide, (premature_disconnect_exactly_once
    (ClientHandle.mk [{ replies := 0, cancels := 0 },
      { replies := 1, cancels := 0 }]) (by decide)).2.2⟩

/-- C3: a configuration document that references an undefined pool makes
init return no usable instance, no instance ever reaches the ready state,
and no client can be created afterward. -/
theorem invalid_pools_fail_closed :
    ∀ (c : ConfigDoc) (ref : Nat), ref ∈ c.referencedPools →
      ref ∉ c.definedPools →
      McrouterInstance.init c = none ∧
      (∀ i, McrouterInstance.init c = some i → i.state ≠ RouterState.ready) ∧
      createClient (McrouterInstance.init c) = none := by
  intro c ref hmem hnd
  have hval : validateConfig c = none := by
    unfold validateConfig
    rw [if_neg (by
      intro hall
      exact hnd (hall ref hmem))]
  have hinit : McrouterInstance.init c = none := by
    unfold McrouterInstance.init
    rw [hval]
  refine ⟨hinit, ?_, ?_⟩
  · intro i hi
    rw [hinit] at hi
    cases hi
  · rw [hinit]
    rfl

/-- Concrete instance of the fail-closed configuration theorem: route
references pool 2, only pool 1 is defined. -/
theorem invalid_pools_fail_closed_witness :
    (2 ∈ (ConfigDoc.mk [1] [2]).referencedPools ∧
      2 ∉ (ConfigDoc.mk [1] [2]).definedPools) ∧
    McrouterInstance.init (ConfigDoc.mk [1] [2]) = none ∧
      createClient (McrouterInstance.init (ConfigDoc.mk [1] [2])) = none :=
  ⟨⟨by decide, by decide⟩,
    (invalid_pools_fail_closed (ConfigDoc.mk [1] [2]) 2
      (by decide) (by decide)).1,
    (invalid_pools_fail_closed (ConfigDoc.mk [1] [2]) 2
      (by decide) (by decide)).2.2⟩

theorem validFields_cons {f : Nat × WireValue} {fs : List (Nat × WireValue)}
    (hf : validField f) (h : validFields fs) : validFields (f :: fs) := by
  intro g hg
  rcases List.mem_cons.1 hg with rfl | hg2
  · exact hf
  · exact h g hg2

theorem validFields_append {fs1 fs2 : List (Nat × WireValue)}
    (h1 : validFields fs1) (h2 : validFields fs2) :
    validFields (fs1 ++ fs2) := by
  intro g hg
  rcases List.mem_append.1 hg with hg1 | hg2
  · exact h1 g hg1
  · exact h2 g hg2

theorem helloReply_applyField_result (m : HelloReply) (tag : Nat)
    (wv : WireValue) (h1 : tag ≠ 1) :
    (m.applyField (tag, wv)).result = m.result := by
  rcases tag with _ | (_ | t)
  · cases wv <;> rfl
  · exact absurd rfl h1
  · cases wv <;> rfl

theorem helloReply_foldl_result (fs : List (Nat × WireValue))
    (m : HelloReply) (h : 1 ∉ fs.map Prod.fst) :
    (fs.foldl HelloReply.applyField m).result = m.result := by
  induction fs generalizing m with
  | nil => rfl
  | cons f fs ih =>
    obtain ⟨tag, wv⟩ := f
    simp only [List.map_cons, List.mem_cons] at h
    push_neg at h
    rw [List.foldl_cons, ih _ h.2,
      helloReply_applyField_result m tag wv (fun he => h.1 he.symm)]

theorem goodbyeRequest_applyField_key (m : GoodbyeRequest) (tag : Nat)
    (wv : WireValue) (h1 : tag ≠ 1) :
    (m.applyField (tag, wv)).key = m.key := by
  rcases tag with _ | (_ | (_ | t))
  · cases wv <;> rfl
  · exact absurd rfl h1
  · cases wv <;> rfl
  · cases wv <;> rfl

theorem goodbyeRequest_applyField_shardId (m : GoodbyeRequest) (tag : Nat)
    (wv : WireValue) (h2 : tag ≠ 2) :
    (m.applyField (tag, wv)).shardId = m.shardId := by
  rcases tag with _ | (_ | (_ | t))
  · cases wv <;> rfl
  · cases wv <;> rfl
  · exact absurd rfl h2
  · cases wv <;> rfl

theorem goodbyeRequest_foldl_key (fs : List (Nat × WireValue))
    (m : GoodbyeRequest) (h : 1 ∉ fs.map Prod.fst) :
    (fs.foldl GoodbyeRequest.applyField m).key = m.key := by
  induction fs generalizing m with
  | nil => rfl
  | cons f fs ih =>
    obtain ⟨tag, wv⟩ := f
    simp only [List.map_cons, List.mem_cons] at h
    push_neg at h
    rw [List.foldl_cons, ih _ h.2,
      goodbyeRequest_applyField_key m tag wv (fun he => h.1 he.symm)]

theorem goodbyeRequest_foldl_shardId (fs : List (Nat × WireValue))
    (m : GoodbyeRequest) (h : 2 ∉ fs.map Prod.fst) :
    (fs.foldl GoodbyeRequest.applyField m).shardId = m.shardId := by
  induction fs generalizing m with
  | nil => rfl
  | cons f fs ih =>
    obtain ⟨tag, wv⟩ := f
    simp only [List.map_cons, List.mem_cons] at h
    push_neg at h
    rw [List.foldl_cons, ih _ h.2,
      goodbyeRequest_applyField_shardId m tag wv (fun he => h.1 he.symm)]

theorem helloRequest_applyField_shardId_congr (m1 m2 : HelloRequest)
    (f : Nat × WireValue) (h : m1.shardId = m2.shardId) :
    (m1.applyField f).shardId = (m2.applyField f).shardId := by
  obtain ⟨tag, wv⟩ := f
  rcases tag with _ | (_ | (_ | t)) <;> cases wv <;> first | exact h | rfl

theorem helloRequest_applyField_key_congr (m1 m2 : HelloRequest)
    (f : Nat × WireValue) (h : m1.key = m2.key) :
    (m1.applyField f).key = (m2.applyField f).key := by
  obtain ⟨tag, wv⟩ := f
  rcases tag with _ | (_ | (_ | t)) <;> cases wv <;> first | exact h | rfl

theorem helloRequest_foldl_shardId_congr (fs : List (Nat × WireValue))
    (m1 m2 : HelloRequest) (h : m1.shardId = m2.shardId) :
    (fs.foldl HelloRequest.applyField m1).shardId =
      (fs.foldl HelloRequest.applyField m2).shardId := by
  induction fs generalizing m1 m2 with
  | nil => exact h
  | cons f fs ih =>
    rw [List.foldl_cons, List.foldl_cons]
    exact ih _ _ (helloRequest_applyField_shardId_congr m1 m2 f h)

theorem helloRequest_foldl_key_congr (fs : List (Nat × WireValue))
    (m1 m2 : HelloRequest) (h : m1.key = m2.key) :
    (fs.foldl HelloRequest.applyField m1).key =
      (fs.foldl HelloRequest.applyField m2).key := by
  induction fs generalizing m1 m2 with
  | nil => exact h
  | cons f fs ih =>
    rw [List.foldl_cons, List.foldl_cons]
    exact ih _ _ (helloRequest_applyField_key_congr m1 m2 f h)

/-- C5: for every encoded structure (any valid field list, possibly
multi-field and with unknown tags) that omits a tag known to the reading
message type, deserializing it into a default-initialized message succeeds,
consumes the whole structure, and leaves the corresponding field slot at
its declared default value (empty string or zero); and a structure
consisting of exactly one stop marker decodes every message type to its
all-default value.  Stated for every known tag of all four message
types. -/
theorem missing_tag_defaults :
    (∀ fs, validFields fs → 1 ∉ fs.map Prod.fst →
      ∃ p, HelloRequest.deserialize HelloRequest.default
          (encodeFields fs ++ writeStop) = some p ∧
        p.1.key = [] ∧ p.2 = []) ∧
    (∀ fs, validFields fs → 2 ∉ fs.map Prod.fst →
      ∃ p, HelloRequest.deserialize HelloRequest.default
          (encodeFields fs ++ writeStop) = some p ∧
        p.1.shardId = 0 ∧ p.2 = []) ∧
    (∀ fs, validFields fs → 1 ∉ fs.map Prod.fst →
      ∃ p, HelloReply.deserialize HelloReply.default
          (encodeFields fs ++ writeStop) = some p ∧
        p.1.result = 0 ∧ p.2 = []) ∧
    (∀ fs, validFields fs → 1 ∉ fs.map Prod.fst →
      ∃ p, GoodbyeRequest.deserialize GoodbyeRequest.default
          (encodeFields fs ++ writeStop) = some p ∧
        p.1.key = [] ∧ p.2 = []) ∧
    (∀ fs, validFields fs → 2 ∉ fs.map Prod.fst →
      ∃ p, GoodbyeRequest.deserialize GoodbyeRequest.default
          (encodeFields fs ++ writeStop) = some p ∧
        p.1.shardId = 0 ∧ p.2 = []) ∧
    (∀ fs, validFields fs → 1 ∉ fs.map Prod.fst →
      ∃ p, GoodbyeReply.deserialize GoodbyeReply.default
          (encodeFields fs ++ writeStop) = some p ∧
        p.1.result = 0 ∧ p.2 = []) ∧
    (∀ fs, validFields fs → 2 ∉ fs.map Prod.fst →
      ∃ p, GoodbyeReply.deserialize GoodbyeReply.default
          (encodeFields fs ++ writeStop) = some p ∧
        p.1.message = [] ∧ p.2 = []) ∧
    HelloRequest.deserialize HelloRequest.default writeStop =
      some (HelloRequest.default, []) ∧
    HelloReply.deserialize HelloReply.default writeStop =
      some (HelloReply.default, []) ∧
    GoodbyeRequest.deserialize GoodbyeRequest.default writeStop =
      some (GoodbyeRequest.default, []) ∧
    GoodbyeReply.deserialize GoodbyeReply.default writeStop =
      some (GoodbyeReply.default, []) := by
  refine ⟨fun fs h ht => ?_, fun fs h ht => ?_, fun fs h ht => ?_,
    fun fs h ht => ?_, fun fs h ht => ?_, fun fs h ht => ?_,
    fun fs h ht => ?_, rfl, rfl, rfl, rfl⟩
  · exact ⟨(fs.foldl HelloRequest.applyField HelloRequest.default, []),
      helloRequest_deserialize_encodeFields fs HelloRequest.default h,
      HelloRequest.foldl_key fs HelloRequest.default ht, rfl⟩
  · exact ⟨(fs.foldl HelloRequest.applyField HelloRequest.default, []),
      helloRequest_deserialize_encodeFields fs HelloRequest.default h,
      HelloRequest.foldl_shardId fs HelloRequest.default ht, rfl⟩
  · exact ⟨(fs.foldl HelloReply.applyField HelloReply.default, []),
      helloReply_deserialize_encodeFields fs HelloReply.default h,
      helloReply_foldl_result fs HelloReply.default ht, rfl⟩
  · exact ⟨(fs.foldl GoodbyeRequest.applyField GoodbyeRequest.default, []),
      goodbyeRequest_deserialize_encodeFields fs GoodbyeRequest.default h,
      goodbyeRequest_foldl_key fs GoodbyeRequest.default ht, rfl⟩
  · exact ⟨(fs.foldl GoodbyeRequest.applyField GoodbyeRequest.default, []),
      goodbyeRequest_deserialize_encodeFields fs GoodbyeRequest.default h,
      goodbyeRequest_foldl_shardId fs GoodbyeRequest.default ht, rfl⟩
  · exact ⟨(fs.foldl GoodbyeReply.applyField GoodbyeReply.default, []),
      goodbyeReply_deserialize_encodeFields fs GoodbyeReply.default h,
      GoodbyeReply.foldl_result fs GoodbyeReply.default ht, rfl⟩
  · exact ⟨(fs.foldl GoodbyeReply.applyField GoodbyeReply.default, []),
      goodbyeReply_deserialize_encodeFields fs GoodbyeReply.default h,
      GoodbyeReply.foldl_message fs GoodbyeReply.default ht, rfl⟩

/-- Concrete instance of the backward-compatibility theorem: a two-field
structure (known tag 1 plus an unknown tag 7) omitting tag 2 leaves the
GoodbyeReply message slot at its default. -/
theorem missing_tag_defaults_witness :
    validFields [(1, WireValue.i64 9), (7, WireValue.bin [1])] ∧
      ∃ p, GoodbyeReply.deserialize GoodbyeReply.default
          (encodeFields [(1, WireValue.i64 9), (7, WireValue.bin [1])] ++
            writeStop) = some p ∧ p.1.message = [] ∧ p.2 = [] :=
  ⟨by decide, missing_tag_defaults.2.2.2.2.2.2.1
    [(1, WireValue.i64 9), (7, WireValue.bin [1])] (by decide) (by decide)⟩

/-- C6: for every encoded structure containing two fields with the same
known tag, at any positions and with arbitrary valid fields before,
between and after them, deserialize accepts the input, the first of the
two duplicate fields has no effect on the result (dropping it from the
structure leaves the decode unchanged), and whenever the second duplicate
is the last occurrence of that tag the field slot holds its value (last
write wins).  Stated for both known tags of HelloRequest, whose field
loop is cited. -/
theorem duplicate_tag_last_wins :
    (∀ (m0 : HelloRequest) fs1 fs2 fs3 (k1 k2 : List Nat),
      validFields fs1 → validFields fs2 → validFields fs3 →
      validBin k1 → validBin k2 →
      HelloRequest.deserialize m0
          (encodeFields (fs1 ++ (1, WireValue.bin k1) ::
            (fs2 ++ (1, WireValue.bin k2) :: fs3)) ++ writeStop) =
        HelloRequest.deserialize m0
          (encodeFields (fs1 ++ (fs2 ++ (1, WireValue.bin k2) :: fs3)) ++
            writeStop) ∧
      (HelloRequest.deserialize m0
          (encodeFields (fs1 ++ (1, WireValue.bin k1) ::
            (fs2 ++ (1, WireValue.bin k2) :: fs3)) ++ writeStop)).isSome =
        true ∧
      (1 ∉ fs3.map Prod.fst →
        ∃ p, HelloRequest.deserialize m0
            (encodeFields (fs1 ++ (1, WireValue.bin k1) ::
              (fs2 ++ (1, WireValue.bin k2) :: fs3)) ++ writeStop) =
          some p ∧ p.1.key = k2 ∧ p.2 = [])) ∧
    (∀ (m0 : HelloRequest) fs1 fs2 fs3 (v1 v2 : Int),
      validFields fs1 → validFields fs2 → validFields fs3 →
      validI64 v1 → validI64 v2 →
      HelloRequest.deserialize m0
          (encodeFields (fs1 ++ (2, WireValue.i64 v1) ::
            (fs2 ++ (2, WireValue.i64 v2) :: fs3)) ++ writeStop) =
        HelloRequest.deserialize m0
          (encodeFields (fs1 ++ (fs2 ++ (2, WireValue.i64 v2) :: fs3)) ++
            writeStop) ∧
      (HelloRequest.deserialize m0
          (encodeFields (fs1 ++ (2, WireValue.i64 v1) ::
            (fs2 ++ (2, WireValue.i64 v2) :: fs3)) ++ writeStop)).isSome =
        true ∧
      (2 ∉ fs3.map Prod.fst →
        ∃ p, HelloRequest.deserialize m0
            (encodeFields (fs1 ++ (2, WireValue.i64 v1) ::
              (fs2 ++ (2, WireValue.i64 v2) :: fs3)) ++ writeStop) =
          some p ∧ p.1.shardId = v2 ∧ p.2 = [])) := by
  constructor
  · intro m0 fs1 fs2 fs3 k1 k2 h1 h2 h3 hk1 hk2
    have hf2 : validFields (fs2 ++ (1, WireValue.bin k2) :: fs3) :=
      validFields_append h2 (validFields_cons ⟨by norm_num, hk2⟩ h3)
    have hdup : validFields (fs1 ++ (1, WireValue.bin k1) ::
        (fs2 ++ (1, WireValue.bin k2) :: fs3)) :=
      validFields_append h1 (validFields_cons ⟨by norm_num, hk1⟩ hf2)
    have hdrop : validFields
        (fs1 ++ (fs2 ++ (1, WireValue.bin k2) :: fs3)) :=
      validFields_append h1 hf2
    have heq : (fs1 ++ (1, WireValue.bin k1) ::
          (fs2 ++ (1, WireValue.bin k2) :: fs3)).foldl
            HelloRequest.applyField m0 =
        (fs1 ++ (fs2 ++ (1, WireValue.bin k2) :: fs3)).foldl
          HelloRequest.applyField m0 := by
      simp only [List.foldl_append, List.foldl_cons]
      have hs := helloRequest_foldl_shardId_congr fs2
        (HelloRequest.applyField (fs1.foldl HelloRequest.applyField m0)
          (1, WireValue.bin k1))
        (fs1.foldl HelloRequest.applyField m0) rfl
      have hstep : HelloRequest.applyField
          (fs2.foldl HelloRequest.applyField
            (HelloRequest.applyField (fs1.foldl HelloRequest.applyField m0)
              (1, WireValue.bin k1))) (1, WireValue.bin k2) =
          HelloRequest.applyField
            (fs2.foldl HelloRequest.applyField
              (fs1.foldl HelloRequest.applyField m0))
            (1, WireValue.bin k2) := by
        show HelloRequest.mk k2 _ = HelloRequest.mk k2 _
        rw [hs]
      rw [hstep]
    refine ⟨?_, ?_, ?_⟩
    · rw [helloRequest_deserialize_encodeFields _ _ hdup,
        helloRequest_deserialize_encodeFields _ _ hdrop, heq]
    · rw [helloRequest_deserialize_encodeFields _ _ hdup]
      rfl
    · intro ht
      refine ⟨((fs1 ++ (1, WireValue.bin k1) ::
          (fs2 ++ (1, WireValue.bin k2) :: fs3)).foldl
            HelloRequest.applyField m0, []),
        helloRequest_deserialize_encodeFields _ _ hdup, ?_, rfl⟩
      simp only [List.foldl_append, List.foldl_cons]
      rw [HelloRequest.foldl_key fs3 _ ht]
      rfl
  · intro m0 fs1 fs2 fs3 v1 v2 h1 h2 h3 hv1 hv2
    have hf2 : validFields (fs2 ++ (2, WireValue.i64 v2) :: fs3) :=
      validFields_append h2 (validFields_cons ⟨by norm_num, hv2⟩ h3)
    have hdup : validFields (fs1 ++ (2, WireValue.i64 v1) ::
        (fs2 ++ (2, WireValue.i64 v2) :: fs3)) :=
      validFields_append h1 (validFields_cons ⟨by norm_num, hv1⟩ hf2)
    have hdrop : validFields
        (fs1 ++ (fs2 ++ (2, WireValue.i64 v2) :: fs3)) :=
      validFields_append h1 hf2
    have heq : (fs1 ++ (2, WireValue.i64 v1) ::
          (fs2 ++ (2, WireValue.i64 v2) :: fs3)).foldl
            HelloRequest.applyField m0 =
        (fs1 ++ (fs2 ++ (2, WireValue.i64 v2) :: fs3)).foldl
          HelloRequest.applyField m0 := by
      simp only [List.foldl_append, List.foldl_cons]
      have hs := helloRequest_foldl_key_congr fs2
        (HelloRequest.applyField (fs1.foldl HelloRequest.applyField m0)
          (2, WireValue.i64 v1))
        (fs1.foldl HelloRequest.applyField m0) rfl
      have hstep : HelloRequest.applyField
          (fs2.foldl HelloRequest.applyField
            (HelloRequest.applyField (fs1.foldl HelloRequest.applyField m0)
              (2, WireValue.i64 v1))) (2, WireValue.i64 v2) =
          HelloRequest.applyField
            (fs2.foldl HelloRequest.applyField
              (fs1.foldl HelloRequest.applyField m0))
            (2, WireValue.i64 v2) := by
        show HelloRequest.mk _ v2 = HelloRequest.mk _ v2
        rw [hs]
      rw [hstep]
    refine ⟨?_, ?_, ?_⟩
    · rw [helloRequest_deserialize_encodeFields _ _ hdup,
        helloRequest_deserialize_encodeFields _ _ hdrop, heq]
    · rw [helloRequest_deserialize_encodeFields _ _ hdup]
      rfl
    · intro ht
      refine ⟨((fs1 ++ (2, WireValue.i64 v1) ::
          (fs2 ++ (2, WireValue.i64 v2) :: fs3)).foldl
            HelloRequest.applyField m0, []),
        helloRequest_deserialize_encodeFields _ _ hdup, ?_, rfl⟩
      simp only [List.foldl_append, List.foldl_cons]
      rw [HelloRequest.foldl_shardId fs3 _ ht]
      rfl

/-- Concrete instance of the duplicate-tag theorem: non-adjacent tag-1
duplicates separated by a tag-2 field; the slot holds the second value. -/
theorem duplicate_tag_last_wins_witness :
    validBin [2, 3] ∧
      ∃ p, HelloRequest.deserialize HelloRequest.default
          (encodeFields ([(2, WireValue.i64 5)] ++ (1, WireValue.bin [1]) ::
            ([(2, WireValue.i64 6)] ++ (1, WireValue.bin [2, 3]) :: [])) ++
            writeStop) = some p ∧ p.1.key = [2, 3] ∧ p.2 = [] :=
  ⟨by decide, (duplicate_tag_last_wins.1 HelloRequest.default
    [(2, WireValue.i64 5)] [(2, WireValue.i64 6)] [] [1] [2, 3]
    (by decide) (by decide) (by decide) (by decide) (by decide)).2.2
    (by decide)⟩
